import Mathlib

/-!
Verification of the home_optimizer routing/scoring core.

The Lean definitions below are a shallow embedding of the Python source:
* the score-aggregation engine (`src/main.py`, `calculate_routes_and_scores`
  and `geocode_locations`),
* the simple-dashboard scoring/ranking loop (`src/simple_dashboard.py`,
  `SimpleHTMLDashboard.load_and_process_data`),
* the cached provider decorator and Mongo-backed store
  (`src/main.py`, `MongoCache`, `CachedRoutingClient`, `setup_routing_client`),
* the demo offline routing client (`demo.py`, `DemoRoutingClient`).

Python floats are modelled as rationals (the engine only adds, multiplies,
divides and compares them); the demo client's trigonometry is modelled over
the reals.  Travel-time rounding (`round(x, 2)`) is modelled as round-to-
nearest over ℚ; Python's banker's tie-breaking differs only at exact .005
ties, which no theorem below depends on.
-/

set_option allowUnsafeReducibility true

attribute [local semireducible] Rat.mul Rat.add Rat.sub Rat.div Rat.neg Rat.inv

/-- Latitude/longitude pair.  The Python code passes coordinates as two-element
lists `[lat, lon]`; only the payload numbers matter to the engine. -/
abbrev Coords := ℚ × ℚ

/-- The fields of a provider response `response["trip"]["summary"]` that the
engine reads.  `time` is `Option` because the code fetches it with `.get("time")`;
the summary may also carry a traffic-adjusted time and an impact percentage. -/
structure Summary where
  time : Option ℚ
  traffic_time : Option ℚ
  traffic_impact_percent : Option ℚ
deriving DecidableEq, Repr

/-- A destination record after geocoding (a dict in the source; optional keys
are `Option`). -/
structure Dest where
  name : String
  coords : Coords
  weight : Option ℚ
  group : Option String
  transport_mode : Option String
  departure_time_to : Option String
  departure_time_from : Option String
  day_of_week : Option String
deriving DecidableEq, Repr

/-- An origin record after geocoding. -/
structure Origin where
  name : String
  coords : Coords
deriving DecidableEq, Repr

/-- The routing client as seen by the engine: a function from
(origin coords, dest coords, costing, departure_time, day_of_week) to an
optional summary.  `none` covers every per-pair failure mode of the source:
a raised exception, a response with no `trip`/`summary` key.  (The condition
on main.py:415-416 and 484-485 tests `response_to` twice where `response_from`
was meant, but a `response_from` lacking a summary then raises a KeyError that
is caught by the same per-destination `try`, so the net per-pair outcome is
identical: the pair is skipped unless both legs carry a summary.) -/
abbrev RouteFn := Coords → Coords → String → Option String → Option String → Option Summary

/-- Python `round(x, 2)` over ℚ. -/
def round2 (q : ℚ) : ℚ := (round (q * 100) : ℚ) / 100

/-- main.py:398-399 and 467-468:
`transport_mode = dest.get("transport_mode", "auto")`;
`route_costing = "pedestrian" if transport_mode == "walking" else costing`. -/
def route_costing (d : Dest) (costing : String) : String :=
  if d.transport_mode.getD ("auto") = "walking" then ("pedestrian") else costing

/-- main.py:417-424 and 486-493: the summed round-trip time, with the
traffic-adjusted sum substituted only when BOTH legs carry `traffic_time`. -/
def chooseTime (t1 t2 : ℚ) (st sf : Summary) : ℚ :=
  match st.traffic_time, sf.traffic_time with
  | some a, some b => a + b
  | _, _ => t1 + t2

/-- Round-trip time of a pair of leg summaries, `none` when either leg lacks a
usable `time` (the source then raises on `None + x` and the exception is
caught, skipping the pair). -/
def tripTime (st sf : Summary) : Option ℚ :=
  match st.time, sf.time with
  | some t1, some t2 => some (chooseTime t1 t2 st sf)
  | _, _ => none

/-- One route record of the final report (the dicts built at main.py:428-448
and 500-519).  `is_shortest_in_group` is `some true` on group-phase records
and `none` where the source dict lacks the key. -/
structure Record where
  origin : String
  destination : String
  group : String
  travel_time : ℚ
  weight : ℚ
  weighted_time : ℚ
  departure_time_to : Option String
  departure_time_from : Option String
  day_of_week : Option String
  origin_coords : Coords
  dest_coords : Coords
  transport_mode : String
  is_shortest_in_group : Option Bool
  traffic_time : Option ℚ
  normal_time : Option ℚ
  traffic_impact_percent : Option ℚ
deriving DecidableEq, Repr

/-- main.py:465-528, one individual destination for one origin.  Returns
(score contribution, valid-route increment, produced record).  When the to-leg
has `traffic_time` and the from-leg does not, line 517 raises a KeyError AFTER
`total_score`/`valid_routes` were already incremented (495-498), so the
contribution stands but no record is appended: `(w·t, 1, none)`. -/
def individualStep (client : RouteFn) (o : Origin) (costing : String) (d : Dest) :
    ℚ × Nat × Option Record :=
  let rc := route_costing d costing
  match client o.coords d.coords rc d.departure_time_to d.day_of_week,
        client o.coords d.coords rc d.departure_time_from d.day_of_week with
  | some st, some sf =>
    match st.time, sf.time with
    | some t1, some t2 =>
      let time_min := chooseTime t1 t2 st sf
      let w := d.weight.getD 1
      let weighted_time := time_min * w
      let r0 : Record :=
        { origin := o.name, destination := d.name,
          group := d.group.getD ("individual"),
          travel_time := round2 time_min, weight := w,
          weighted_time := round2 weighted_time,
          departure_time_to := d.departure_time_to,
          departure_time_from := d.departure_time_from,
          day_of_week := d.day_of_week,
          origin_coords := o.coords, dest_coords := d.coords,
          transport_mode := d.transport_mode.getD ("auto"),
          is_shortest_in_group := none,
          traffic_time := none, normal_time := none,
          traffic_impact_percent := none }
      match st.traffic_time with
      | some a =>
        match sf.traffic_time with
        | some b =>
          (weighted_time, 1, some
            { r0 with
              traffic_time := some (round2 a + round2 b),
              normal_time := some (round2 t1 + round2 t2),
              traffic_impact_percent :=
                some ((st.traffic_impact_percent.getD 0 + sf.traffic_impact_percent.getD 0) / 2) })
        | none => (weighted_time, 1, none)
      | none => (weighted_time, 1, some r0)
    | _, _ => (0, 0, none)
  | _, _ => (0, 0, none)

/-- main.py:405-424, one group member's round trip for one origin; the to-leg
summary is kept because the group-phase record reads its traffic fields. -/
def memberTime (client : RouteFn) (o : Origin) (costing : String) (d : Dest) :
    Option (ℚ × Summary) :=
  let rc := route_costing d costing
  match client o.coords d.coords rc d.departure_time_to d.day_of_week,
        client o.coords d.coords rc d.departure_time_from d.day_of_week with
  | some st, some sf => (tripTime st sf).map (fun t => (t, st))
  | _, _ => none

/-- The group-phase record (main.py:428-448).  `w0` is the weight of the FIRST
member of the group (`group_destinations[0].get("weight", 1.0)`); the traffic
fields are taken from the to-leg summary only, exactly as lines 445-448 do. -/
def mkGroupRecord (o : Origin) (gname : String) (d : Dest) (t : ℚ) (st : Summary)
    (w0 : ℚ) : Record :=
  let r0 : Record :=
    { origin := o.name, destination := d.name, group := gname,
      travel_time := round2 t, weight := w0, weighted_time := round2 (t * w0),
      departure_time_to := d.departure_time_to,
      departure_time_from := d.departure_time_from,
      day_of_week := d.day_of_week,
      origin_coords := o.coords, dest_coords := d.coords,
      transport_mode := d.transport_mode.getD ("auto"),
      is_shortest_in_group := some true,
      traffic_time := none, normal_time := none, traffic_impact_percent := none }
  match st.traffic_time with
  | some a =>
    { r0 with
      traffic_time := some (round2 a),
      normal_time := st.time.map round2,
      traffic_impact_percent := some (st.traffic_impact_percent.getD 0) }
  | none => r0

/-- main.py:426: `time_min < shortest_time`, with `shortest_time` initialised
to `float('inf')` (modelled as `none`). -/
def ltShortest (t : ℚ) : Option ℚ → Bool
  | none => true
  | some s => decide (t < s)

/-- The fold over a group's members (main.py:391-452): running
(shortest_time, best_route) accumulator, strict comparison, so the first
member achieving the minimum is kept. -/
def bestAux (client : RouteFn) (o : Origin) (costing gname : String) (w0 : ℚ) :
    List Dest → Option ℚ × Option Record → Option ℚ × Option Record
  | [], acc => acc
  | d :: ds, (shortest, best) =>
    match memberTime client o costing d with
    | some (t, st) =>
      if ltShortest t shortest then
        bestAux client o costing gname w0 ds (some t, some (mkGroupRecord o gname d t st w0))
      else
        bestAux client o costing gname w0 ds (shortest, best)
    | none => bestAux client o costing gname w0 ds (shortest, best)

/-- `group_destinations[0].get("weight", 1.0)`; groups are built nonempty. -/
def headWeight (ds : List Dest) : ℚ :=
  match ds with
  | [] => 1
  | d :: _ => d.weight.getD 1

/-- The best route of one origin to one group, main.py:390-456. -/
def bestRouteForGroup (client : RouteFn) (o : Origin) (gname : String)
    (ds : List Dest) (costing : String) : Option Record :=
  (bestAux client o costing gname (headWeight ds) ds (none, none)).2

/-- Append a destination to its group's member list, preserving first-seen
group order (Python dict insertion order, main.py:371-378). -/
def pushGroup (gs : List (String × List Dest)) (g : String) (d : Dest) :
    List (String × List Dest) :=
  match gs with
  | [] => [(g, [d])]
  | (g1, ds) :: rest =>
    if g1 = g then (g1, ds ++ [d]) :: rest else (g1, ds) :: pushGroup rest g d

/-- One destination of the partitioning loop (main.py:371-378).  Python's
`if group:` is truthiness, so a missing group OR an empty-string group label
makes the destination individual. -/
def splitStep (acc : List (String × List Dest) × List Dest) (d : Dest) :
    List (String × List Dest) × List Dest :=
  match d.group with
  | some g => if g = "" then (acc.1, acc.2 ++ [d]) else (pushGroup acc.1 g d, acc.2)
  | none => (acc.1, acc.2 ++ [d])

/-- main.py:367-378: partition destinations into groups and individuals. -/
def splitDests (dests : List Dest) : List (String × List Dest) × List Dest :=
  dests.foldl splitStep ([], [])

/-- Replace-or-append on an association list (Python dict assignment keeps the
original key position). -/
def upsertA {β : Type} (l : List (String × β)) (k : String) (v : β) :
    List (String × β) :=
  match l with
  | [] => [(k, v)]
  | (k1, v1) :: rest =>
    if k1 = k then (k1, v) :: rest else (k1, v1) :: upsertA rest k v

/-- Association-list lookup (Python dict indexing). -/
def lookupA {β : Type} (l : List (String × β)) (k : String) : Option β :=
  match l with
  | [] => none
  | (k1, v1) :: rest => if k1 = k then some v1 else lookupA rest k

/-- The per-group best routes of one origin, in group order
(`best_routes_by_origin[origin["name"]]`, main.py:385-456). -/
def groupRecords (client : RouteFn) (o : Origin) (costing : String)
    (groups : List (String × List Dest)) : List (String × Record) :=
  groups.filterMap (fun gp => (bestRouteForGroup client o gp.1 gp.2 costing).map (fun r => (gp.1, r)))

/-- `best_routes_by_origin`: a dict keyed by ORIGIN NAME (main.py:386-388), so
a later origin with the same name overwrites an earlier one's entry. -/
def bestTable (client : RouteFn) (origins : List Origin) (costing : String)
    (groups : List (String × List Dest)) : List (String × List (String × Record)) :=
  origins.foldl (fun tbl o => upsertA tbl o.name (groupRecords client o costing groups)) []

/-- Per-origin aggregate (main.py:542-552). -/
structure Score where
  name : String
  total_score : ℚ
  avg_score : ℚ
  valid_routes : Nat
  coords : Coords
  routes : List Record
deriving DecidableEq, Repr

/-- main.py:459-554, the scoring loop body for one origin: individual
destinations first, then the group winners; the group contribution to
`total_score` is `best_route["travel_time"] * best_route["weight"]`
(line 532), i.e. the ROUNDED travel time times the weight.  An origin with
`valid_routes == 0` produces no score (`none`). -/
def originResult (client : RouteFn) (costing : String)
    (tbl : List (String × List (String × Record))) (indiv : List Dest)
    (o : Origin) : List Record × Option Score :=
  let steps := indiv.map (individualStep client o costing)
  let best := (lookupA tbl o.name).getD []
  let total : ℚ := (steps.map (fun s => s.1)).sum
      + (best.map (fun gr => gr.2.travel_time * gr.2.weight)).sum
  let valid : Nat := (steps.map (fun s => s.2.1)).sum + best.length
  let routes := steps.filterMap (fun s => s.2.2) ++ best.map Prod.snd
  (routes,
    if valid > 0 then
      some { name := o.name, total_score := round2 total,
             avg_score := round2 (total / (valid : ℚ)),
             valid_routes := valid, coords := o.coords, routes := routes }
    else none)

/-- main.py:352-556, `calculate_routes_and_scores`: returns (route_data,
origin_scores) with origin_scores in ORIGIN INPUT ORDER (no sorting here). -/
def calculate_routes_and_scores (client : RouteFn) (origins : List Origin)
    (destinations : List Dest) (costing : String) : List Record × List Score :=
  let gi := splitDests destinations
  let tbl := bestTable client origins costing gi.1
  let results := origins.map (originResult client costing tbl gi.2)
  ((results.map Prod.fst).flatten, results.filterMap Prod.snd)

/-- A destination record before geocoding. -/
structure DestSpec where
  name : String
  weight : Option ℚ
  group : Option String
  transport_mode : Option String
  departure_time_to : Option String
  departure_time_from : Option String
  day_of_week : Option String
deriving DecidableEq, Repr

/-- An origin record before geocoding. -/
structure OriginSpec where
  name : String
deriving DecidableEq, Repr

/-- The geocoding side of the provider: ok coordinates or a raised error. -/
def Geocoder := String → Except String Coords

/-- main.py:333-348: per-item geocoding, sentinel `(0, 0)` on failure. -/
def geocodeItem (g : Geocoder) (name : String) : Coords :=
  match g name with
  | .ok c => c
  | .error _ => (0, 0)

/-- Attach coordinates to one destination record. -/
def geocodeDest (g : Geocoder) (d : DestSpec) : Dest :=
  { name := d.name, coords := geocodeItem g d.name, weight := d.weight,
    group := d.group, transport_mode := d.transport_mode,
    departure_time_to := d.departure_time_to,
    departure_time_from := d.departure_time_from,
    day_of_week := d.day_of_week }

/-- Attach coordinates to one origin record. -/
def geocodeOrigin (g : Geocoder) (osp : OriginSpec) : Origin :=
  { name := osp.name, coords := geocodeItem g osp.name }

/-- main.py:328-350, `geocode_locations`: every item is geocoded, failures are
per-item (sentinel coordinates, nothing thrown, nothing dropped). -/
def geocode_locations (g : Geocoder) (dests : List DestSpec)
    (origins : List OriginSpec) : List Dest × List Origin :=
  (dests.map (geocodeDest g), origins.map (geocodeOrigin g))

/-- One route entry of the simple dashboard (simple_dashboard.py:62-67). -/
structure DashRecord where
  destination : String
  travel_time : ℚ
  weight : ℚ
  weighted_time : ℚ
deriving DecidableEq, Repr

/-- Per-origin aggregate of the simple dashboard (simple_dashboard.py:80-87). -/
structure DashScore where
  name : String
  total_score : ℚ
  avg_score : ℚ
  valid_routes : Nat
  coords : Coords
  routes : List DashRecord
deriving DecidableEq, Repr

/-- simple_dashboard.py:49-76, one (origin, destination) leg: a single one-way
route call (no departure hints), counted when the response has a summary with
a non-None time.  Returns the unrounded weighted time together with the
record. -/
def dashStep (client : RouteFn) (o : Origin) (costing : String) (d : Dest) :
    Option (ℚ × DashRecord) :=
  match client o.coords d.coords costing Option.none Option.none with
  | some s =>
    s.time.map (fun t =>
      let w := d.weight.getD 1
      (t * w,
        { destination := d.name, travel_time := round2 t, weight := w,
          weighted_time := round2 (t * w) }))
  | Option.none => Option.none

/-- simple_dashboard.py:44-87: one origin's score; `none` when
`valid_routes == 0` (the origin is omitted, lines 78-87). -/
def dashOriginScore (client : RouteFn) (costing : String) (dests : List Dest)
    (o : Origin) : Option DashScore :=
  let steps := dests.filterMap (dashStep client o costing)
  let total : ℚ := (steps.map Prod.fst).sum
  let valid := steps.length
  if valid > 0 then
    some { name := o.name, total_score := round2 total,
           avg_score := round2 (total / (valid : ℚ)),
           valid_routes := valid, coords := o.coords,
           routes := steps.map Prod.snd }
  else Option.none

/-- Comparison key of the dashboard sort: `key=lambda x: x["avg_score"]`. -/
def dashLE (a b : DashScore) : Prop := a.avg_score ≤ b.avg_score

instance : DecidableRel dashLE :=
  fun a b => inferInstanceAs (Decidable (a.avg_score ≤ b.avg_score))

instance : IsTotal DashScore dashLE := ⟨fun a b => le_total a.avg_score b.avg_score⟩

instance : IsTrans DashScore dashLE := ⟨fun _ _ _ hab hbc => le_trans hab hbc⟩

/-- simple_dashboard.py:90: `origin_scores.sort(key=lambda x: x["avg_score"])`.
Python's Timsort is a stable sort; insertion sort is stable as well, and any
two stable sorts of the same list under the same key agree, so this is
extensionally the source's sort. -/
def sortScores (l : List DashScore) : List DashScore := List.insertionSort dashLE l

/-- simple_dashboard.py:16-92 `load_and_process_data`, scoring part: geocode
(as in `geocode_locations`, which the dashboard duplicates verbatim at lines
26-38), score each origin, drop zero-valid origins, sort ascending by
average score. -/
def load_and_process_data (client : RouteFn) (g : Geocoder)
    (dests : List DestSpec) (origins : List OriginSpec) (costing : String) :
    List DashScore :=
  let ds := dests.map (geocodeDest g)
  let os := origins.map (geocodeOrigin g)
  sortScores (os.filterMap (dashOriginScore client costing ds))

/-- The ordering property exactly as the claim states it: for all pairs A, B
in the output, A appears before B iff A.avg_score ≤ B.avg_score. -/
def RankedIff (l : List DashScore) : Prop :=
  ∀ i j : Fin l.length, i ≠ j →
    ((i.val < j.val) ↔ (l.get i).avg_score ≤ (l.get j).avg_score)

instance (l : List DashScore) : Decidable (RankedIff l) := by
  unfold RankedIff
  infer_instance

/-- A JSON document, the storage format of the cache (`json.dumps` output). -/
inductive Json where
  | null
  | bool (b : Bool)
  | num (q : ℚ)
  | str (s : String)
  | arr (xs : List Json)
  | obj (kvs : List (String × Json))

/-- A JSON-serializable Python value.  Python distinguishes tuples from lists
(both serialize to JSON arrays) and `None` from an absent value; numbers are
modelled as rationals. -/
inductive PyVal where
  | none
  | bool (b : Bool)
  | num (q : ℚ)
  | str (s : String)
  | list (xs : List PyVal)
  | tuple (xs : List PyVal)
  | dict (kvs : List (String × PyVal))

mutual

/-- `json.dumps` up to the JSON value level: tuples and lists both become
arrays, dict insertion order is preserved (no `sort_keys` here). -/
def toJson : PyVal → Json
  | .none => .null
  | .bool b => .bool b
  | .num q => .num q
  | .str s => .str s
  | .list xs => .arr (toJsonList xs)
  | .tuple xs => .arr (toJsonList xs)
  | .dict kvs => .obj (toJsonKvs kvs)

def toJsonList : List PyVal → List Json
  | [] => []
  | x :: xs => toJson x :: toJsonList xs

def toJsonKvs : List (String × PyVal) → List (String × Json)
  | [] => []
  | kv :: kvs => (kv.1, toJson kv.2) :: toJsonKvs kvs

end

mutual

/-- `json.loads` at the value level: JSON arrays parse back as Python lists
(never tuples), null as None. -/
def fromJson : Json → PyVal
  | .null => .none
  | .bool b => .bool b
  | .num q => .num q
  | .str s => .str s
  | .arr xs => .list (fromJsonList xs)
  | .obj kvs => .dict (fromJsonKvs kvs)

def fromJsonList : List Json → List PyVal
  | [] => []
  | x :: xs => fromJson x :: fromJsonList xs

def fromJsonKvs : List (String × Json) → List (String × PyVal)
  | [] => []
  | kv :: kvs => (kv.1, fromJson kv.2) :: fromJsonKvs kvs

end

mutual

/-- True when a Python value contains no tuple anywhere (such values survive
a JSON round trip unchanged). -/
def tupleFree : PyVal → Bool
  | .none => true
  | .bool _ => true
  | .num _ => true
  | .str _ => true
  | .list xs => tupleFreeList xs
  | .tuple _ => false
  | .dict kvs => tupleFreeKvs kvs

def tupleFreeList : List PyVal → Bool
  | [] => true
  | x :: xs => tupleFree x && tupleFreeList xs

def tupleFreeKvs : List (String × PyVal) → Bool
  | [] => true
  | kv :: kvs => tupleFree kv.2 && tupleFreeKvs kvs

end

/-- Key order used by `json.dumps(..., sort_keys=True)`. -/
def keyLE (a b : String × Json) : Prop := a.1 ≤ b.1

instance : DecidableRel keyLE :=
  fun a b => inferInstanceAs (Decidable (a.1 ≤ b.1))

instance : IsTotal (String × Json) keyLE := ⟨fun a b => le_total a.1 b.1⟩

instance : IsTrans (String × Json) keyLE := ⟨fun _ _ _ hab hbc => le_trans hab hbc⟩

/-- Sort an object's bindings by key (Python's `sorted` is stable; so is
insertion sort, and stable sorts under the same key coincide). -/
def sortKvs (kvs : List (String × Json)) : List (String × Json) :=
  List.insertionSort keyLE kvs

mutual

/-- Recursively sort every object's keys: the effect of `sort_keys=True`
factored out of the rendering. -/
def sortJson : Json → Json
  | .null => .null
  | .bool b => .bool b
  | .num q => .num q
  | .str s => .str s
  | .arr xs => .arr (sortJsonList xs)
  | .obj kvs => .obj (sortKvs (sortJsonKvs kvs))

def sortJsonList : List Json → List Json
  | [] => []
  | x :: xs => sortJson x :: sortJsonList xs

def sortJsonKvs : List (String × Json) → List (String × Json)
  | [] => []
  | kv :: kvs => (kv.1, sortJson kv.2) :: sortJsonKvs kvs

end

/-- Escape one character of a JSON string.  The full control-character table
of `json.dumps` is elided: the repository's method names, addresses and
argument strings contain none. -/
def escapeChar (c : Char) : String :=
  if c = '\"' then ("\\\"")
  else if c = '\\' then ("\\\\")
  else if c = '\n' then ("\\n")
  else if c = '\t' then ("\\t")
  else if c = '\r' then ("\\r")
  else String.singleton c

/-- Render a JSON string literal. -/
def renderString (s : String) : String :=
  "\"" ++ String.join (s.data.map escapeChar) ++ "\""

/-- Join rendered items with a separator. -/
def joinSep (sep : String) : List String → String
  | [] => ""
  | [x] => x
  | x :: xs => x ++ sep ++ joinSep sep xs

mutual

/-- Render a JSON document with `json.dumps`'s default separators
`", "` and `": "`.  Python's float repr is abstracted by the canonical
rational rendering; every theorem below relies only on the rendering being a
function of the document. -/
def dumps : Json → String
  | .null => "null"
  | .bool b => if b then ("true") else ("false")
  | .num q => toString q
  | .str s => renderString s
  | .arr xs => "[" ++ joinSep (", ") (dumpsList xs) ++ "]"
  | .obj kvs => "\x7b" ++ joinSep (", ") (dumpsKvs kvs) ++ "\x7d"

def dumpsList : List Json → List String
  | [] => []
  | x :: xs => dumps x :: dumpsList xs

def dumpsKvs : List (String × Json) → List String
  | [] => []
  | kv :: kvs => (renderString kv.1 ++ ": " ++ dumps kv.2) :: dumpsKvs kvs

end

/-- 32-bit truncation. -/
def w32 (n : Nat) : Nat := n % 4294967296

/-- 32-bit right rotation. -/
def rotr32 (k x : Nat) : Nat := w32 ((x >>> k) ||| (x <<< (32 - k)))

def bigSigma0 (x : Nat) : Nat := rotr32 2 x ^^^ rotr32 13 x ^^^ rotr32 22 x

def bigSigma1 (x : Nat) : Nat := rotr32 6 x ^^^ rotr32 11 x ^^^ rotr32 25 x

def smallSigma0 (x : Nat) : Nat := rotr32 7 x ^^^ rotr32 18 x ^^^ (x >>> 3)

def smallSigma1 (x : Nat) : Nat := rotr32 17 x ^^^ rotr32 19 x ^^^ (x >>> 10)

def chFn (x y z : Nat) : Nat := (x &&& y) ^^^ ((x ^^^ 4294967295) &&& z)

def majFn (x y z : Nat) : Nat := (x &&& y) ^^^ (x &&& z) ^^^ (y &&& z)

/-- The SHA-256 round constants (the 32 fractional bits of the cube roots of
the first 64 primes), written in decimal. -/
def shaK : List Nat :=
  [1116352408, 1899447441, 3049323471, 3921009573, 961987163, 1508970993,
   2453635748, 2870763221, 3624381080, 310598401, 607225278, 1426881987,
   1925078388, 2162078206, 2614888103, 3248222580, 3835390401, 4022224774,
   264347078, 604807628, 770255983, 1249150122, 1555081692, 1996064986,
   2554220882, 2821834349, 2952996808, 3210313671, 3336571891, 3584528711,
   113926993, 338241895, 666307205, 773529912, 1294757372, 1396182291,
   1695183700, 1986661051, 2177026350, 2456956037, 2730485921, 2820302411,
   3259730800, 3345764771, 3516065817, 3600352804, 4094571909, 275423344,
   430227734, 506948616, 659060556, 883997877, 958139571, 1322822218,
   1537002063, 1747873779, 1955562222, 2024104815, 2227730452, 2361852424,
   2428436474, 2756734187, 3204031479, 3329325298]

/-- The SHA-256 initial hash state (the 32 fractional bits of the square
roots of the first 8 primes), in decimal. -/
def shaInit : List Nat :=
  [1779033703, 3144134277, 1013904242, 2773480762,
   1359893119, 2600822924, 528734635, 1541459225]

/-- Big-endian bytes to 32-bit words. -/
def bytesToWords : List Nat → List Nat
  | b1 :: b2 :: b3 :: b4 :: rest =>
    (b1 * 16777216 + b2 * 65536 + b3 * 256 + b4) :: bytesToWords rest
  | _ => []

/-- Big-endian 8-byte encoding of the bit length. -/
def lenBytes (n : Nat) : List Nat :=
  [n >>> 56 % 256, n >>> 48 % 256, n >>> 40 % 256, n >>> 32 % 256,
   n >>> 24 % 256, n >>> 16 % 256, n >>> 8 % 256, n % 256]

/-- SHA-256 message padding. -/
def padMessage (msg : List Nat) : List Nat :=
  let L := msg.length
  let z := (64 + 56 - (L + 1) % 64) % 64
  msg ++ [128] ++ List.replicate z 0 ++ lenBytes (8 * L)

/-- Split a byte list into 64-byte blocks. -/
def chunks : List Nat → List (List Nat)
  | [] => []
  | x :: xs => (x :: xs).take 64 :: chunks ((x :: xs).drop 64)
termination_by l => l.length
decreasing_by
  simp [List.length_drop]
  omega

/-- Extend 16 words to the 64-word message schedule. -/
def extendWords (ws : List Nat) : List Nat :=
  (List.range 48).foldl
    (fun w _ =>
      w ++ [w32 (smallSigma1 (w.getD (w.length - 2) 0) + w.getD (w.length - 7) 0
            + smallSigma0 (w.getD (w.length - 15) 0) + w.getD (w.length - 16) 0)])
    ws

/-- One SHA-256 block compression. -/
def compressBlock (h : List Nat) (block : List Nat) : List Nat :=
  let w := extendWords (bytesToWords block)
  let s := (List.range 64).foldl
    (fun (st : List Nat) i =>
      match st with
      | [a, b, c, d, e, f, g, hh] =>
        let t1 := w32 (hh + bigSigma1 e + chFn e f g + shaK.getD i 0 + w.getD i 0)
        let t2 := w32 (bigSigma0 a + majFn a b c)
        [w32 (t1 + t2), a, b, c, w32 (d + t1), e, f, g]
      | _ => st) h
  match h, s with
  | [h0, h1, h2, h3, h4, h5, h6, h7], [a, b, c, d, e, f, g, hh] =>
    [w32 (h0 + a), w32 (h1 + b), w32 (h2 + c), w32 (h3 + d),
     w32 (h4 + e), w32 (h5 + f), w32 (h6 + g), w32 (h7 + hh)]
  | _, _ => h

/-- UTF-8 encoding of one character. -/
def charUtf8 (c : Char) : List Nat :=
  let n := c.toNat
  if n < 128 then [n]
  else if n < 2048 then [192 + n / 64, 128 + n % 64]
  else if n < 65536 then [224 + n / 4096, 128 + n / 64 % 64, 128 + n % 64]
  else [240 + n / 262144, 128 + n / 4096 % 64, 128 + n / 64 % 64, 128 + n % 64]

/-- UTF-8 bytes of a string (`key_data.encode()`). -/
def strBytes (s : String) : List Nat := (s.data.map charUtf8).flatten

/-- SHA-256 of a byte list, as eight 32-bit words. -/
def sha256Words (msgBytes : List Nat) : List Nat :=
  (chunks (padMessage msgBytes)).foldl compressBlock shaInit

/-- The lowercase hex digit of a value below 16. -/
def hexDigit (n : Nat) : Char :=
  if n < 10 then Char.ofNat (48 + n) else Char.ofNat (87 + n)

/-- Lowercase hex of one 32-bit word. -/
def wordHex (n : Nat) : String :=
  String.mk ((List.range 8).map (fun i => hexDigit ((n >>> (28 - 4 * i)) % 16)))

/-- `hashlib.sha256(s.encode()).hexdigest()`. -/
def sha256hex (s : String) : String :=
  String.join ((sha256Words (strBytes s)).map wordHex)

/-- main.py:260-267, `CachedRoutingClient._generate_key`: SHA-256 of the
key-sorted JSON serialization of provider name, method, positional and
keyword arguments. -/
def generate_key (client_name method : String) (args : List PyVal)
    (kwargs : List (String × PyVal)) : String :=
  let key_data := dumps (sortJson (Json.obj
    [("client_name", .str client_name), ("method", .str method),
     ("args", .arr (args.map toJson)),
     ("kwargs", .obj (kwargs.map (fun kv => (kv.1, toJson kv.2))))]))
  sha256hex key_data

/-- The wrapped routing provider as the decorator sees it: a name (used in
fingerprints) plus pure geocode/route functions over Python values. -/
structure Prov where
  name : String
  geocode_fn : String → PyVal
  route_fn : PyVal → PyVal → String → Option String → Option String → PyVal

/-- One document of the Mongo cache collection: the `json.dumps`-serialized
value plus the request metadata (main.py:240-251). -/
structure CacheEntry where
  value : Json
  metadata : List (String × PyVal)

/-- The Mongo-backed store.  `up` models reachability of the backing server;
when it is false every operation raises, exactly as pymongo does. -/
structure CacheStore where
  up : Bool
  data : List (String × CacheEntry)

/-- main.py:234-238, `MongoCache.get`: `json.loads(result["value"])` when a
document exists, `None` otherwise.  A stored JSON `null` and an absent key
are indistinguishable to the caller: both come back as Python `None`. -/
def mongoGet (c : CacheStore) (key : String) : Except String PyVal :=
  if c.up then
    .ok (match lookupA c.data key with
      | some e => fromJson e.value
      | Option.none => PyVal.none)
  else .error ("MongoDB unavailable")

/-- main.py:240-251, `MongoCache.set`: upsert of the serialized value. -/
def mongoSet (c : CacheStore) (key : String) (v : PyVal)
    (metadata : List (String × PyVal)) : Except String CacheStore :=
  if c.up then
    .ok { c with data := upsertA c.data key { value := toJson v, metadata := metadata } }
  else .error ("MongoDB unavailable")

/-- Python's `x is not None`, negated. -/
def pyIsNone : PyVal → Bool
  | .none => true
  | _ => false

/-- Lift an optional string argument to the Python value passed along. -/
def optStr : Option String → PyVal
  | Option.none => PyVal.none
  | some s => .str s

/-- The fingerprint of a `get_route` call, main.py:274. -/
def routeKey (p : Prov) (origin destination : PyVal) (costing : String)
    (departure_time day_of_week : Option String) : String :=
  generate_key p.name ("get_route") [origin, destination]
    [("costing", .str costing), ("departure_time", optStr departure_time),
     ("day_of_week", optStr day_of_week)]

/-- The request metadata stored beside a route result, main.py:283-291. -/
def routeMetadata (p : Prov) (origin destination : PyVal) (costing : String)
    (departure_time day_of_week : Option String) : List (String × PyVal) :=
  [("method", .str ("get_route")), ("origin", origin),
   ("destination", destination), ("costing", .str costing),
   ("departure_time", optStr departure_time),
   ("day_of_week", optStr day_of_week), ("client_name", .str p.name)]

/-- main.py:273-294, `CachedRoutingClient.get_route`.  The result triple is
(returned value, cache state after the call, number of wrapped-provider
invocations made by this call).  There is no try/except around the cache
operations in the source: a raised cache error propagates (`Except.error`). -/
def cachedGetRoute (p : Prov) (c : CacheStore) (origin destination : PyVal)
    (costing : String) (departure_time day_of_week : Option String) :
    Except String (PyVal × CacheStore × Nat) :=
  let key := routeKey p origin destination costing departure_time day_of_week
  match mongoGet c key with
  | .error e => .error e
  | .ok cached =>
    if pyIsNone cached then
      let result := p.route_fn origin destination costing departure_time day_of_week
      match mongoSet c key result
          (routeMetadata p origin destination costing departure_time day_of_week) with
      | .error e => .error e
      | .ok c2 => .ok (result, c2, 1)
    else .ok (cached, c, 0)

/-- The fingerprint of a `geocode` call, main.py:297. -/
def geocodeKey (p : Prov) (address : String) : String :=
  generate_key p.name ("geocode") [] [("address", .str address)]

/-- main.py:296-312, `CachedRoutingClient.geocode`. -/
def cachedGeocode (p : Prov) (c : CacheStore) (address : String) :
    Except String (PyVal × CacheStore × Nat) :=
  let key := geocodeKey p address
  match mongoGet c key with
  | .error e => .error e
  | .ok cached =>
    if pyIsNone cached then
      let result := p.geocode_fn address
      match mongoSet c key result
          [("method", .str ("geocode")), ("address", .str address),
           ("client_name", .str p.name)] with
      | .error e => .error e
      | .ok c2 => .ok (result, c2, 1)
    else .ok (cached, c, 0)

/-- What `setup_routing_client` hands to the engine: the provider wrapped in
the cache decorator, or the bare provider. -/
inductive ClientChoice where
  | cached (store : CacheStore)
  | plain

/-- main.py:224-232, `MongoCache.__init__`: pings the server and raises when
it is unreachable. -/
def mkMongoCache (mongoUp : Bool) : Except String CacheStore :=
  if mongoUp then .ok { up := true, data := [] } else .error ("ping failed")

/-- main.py:666-676: try to construct the cache; on any failure fall back to
the uncached client.  This is the ONLY place the source handles cache-store
unavailability. -/
def setup_routing_client (mongoUp : Bool) : ClientChoice :=
  match mkMongoCache mongoUp with
  | .ok c => .cached c
  | .error _ => .plain

/-- A route call through whichever client `setup_routing_client` produced. -/
def routeVia (p : Prov) (ch : ClientChoice) (origin destination : PyVal)
    (costing : String) (departure_time day_of_week : Option String) :
    Except String (PyVal × ClientChoice × Nat) :=
  match ch with
  | .plain => .ok (p.route_fn origin destination costing departure_time day_of_week, .plain, 1)
  | .cached c =>
    (cachedGetRoute p c origin destination costing departure_time day_of_week).map
      (fun r => (r.1, .cached r.2.1, r.2.2))

/-- demo.py:72-81: profile-specific average speeds, default 40. -/
def speed_map (costing : String) : ℚ :=
  if costing = "auto" then 40
  else if costing = "bicycle" then 15
  else if costing = "pedestrian" then 5
  else if costing = "bus" then 25
  else if costing = "motor_scooter" then 35
  else if costing = "truck" then 30
  else 40

def demo_weekdays : List String :=
  ["monday", "tuesday", "wednesday", "thursday", "friday"]

/-- `int(departure_time.split(':')[0])`; `none` models the ValueError Python
raises on a non-numeric hour. -/
def parseHour (s : String) : Option Int := ((s.splitOn (":")).headD ("")).toInt?

/-- Python truthiness of an optional string (`if departure_time and
day_of_week:`): None and the empty string are falsy. -/
def strTruthy : Option String → Bool
  | Option.none => false
  | some s => decide (s ≠ "")

/-- demo.py:88-95: rush-hour factor 1.3 on weekday rush hours, else 1.
`none` models the uncaught ValueError of `int(...)` on a malformed hour. -/
def demoTrafficFactor (departure_time day_of_week : Option String) : Option ℚ :=
  if strTruthy departure_time && strTruthy day_of_week then
    match departure_time, day_of_week with
    | some t, some d =>
      if demo_weekdays.contains d.toLower then
        match parseHour t with
        | some h => some (if (7 ≤ h ∧ h ≤ 9) ∨ (17 ≤ h ∧ h ≤ 19) then 13 / 10 else 1)
        | Option.none => Option.none
      else some 1
    | _, _ => some 1
  else some 1

/-- demo.py:54-69: great-circle distance by the haversine formula. -/
noncomputable def haversine_km (lat1 lon1 lat2 lon2 : ℝ) : ℝ :=
  let lat1r := lat1 * (Real.pi / 180)
  let lat2r := lat2 * (Real.pi / 180)
  let lon1r := lon1 * (Real.pi / 180)
  let lon2r := lon2 * (Real.pi / 180)
  let dlat := lat2r - lat1r
  let dlon := lon2r - lon1r
  let a := Real.sin (dlat / 2) ^ 2
    + Real.cos lat1r * Real.cos lat2r * Real.sin (dlon / 2) ^ 2
  let c := 2 * Real.arcsin (Real.sqrt a)
  6371 * c

/-- The summary dict returned by `DemoRoutingClient.get_route`
(demo.py:99-108). -/
structure DemoSummary where
  time : ℝ
  distance : ℝ
  traffic_time : ℝ
  traffic_impact_percent : ℝ

/-- demo.py:51-108, `DemoRoutingClient.get_route`.  The call to
`random.random()` at line 86 is made explicit as the extra input `jitter`
(the RNG draw, in `[0,1)`); the source multiplies the base time by
`0.8 + random.random() * 0.4`.  `none` models the uncaught ValueError of the
hour parse inside the traffic branch. -/
noncomputable def demoGetRoute (origin destination : ℝ × ℝ) (costing : String)
    (departure_time day_of_week : Option String) (jitter : ℝ) :
    Option DemoSummary :=
  let distance_km := haversine_km origin.1 origin.2 destination.1 destination.2
  let speed : ℝ := ((speed_map costing : ℚ) : ℝ)
  let time_minutes0 := distance_km / speed * 60
  let time_minutes := time_minutes0 * (8 / 10 + jitter * (4 / 10))
  (demoTrafficFactor departure_time day_of_week).map (fun tf =>
    { time := time_minutes, distance := distance_km,
      traffic_time := time_minutes * ((tf : ℚ) : ℝ),
      traffic_impact_percent := (((tf : ℚ) : ℝ) - 1) * 100 })

/-- Modelled from the spec for comparison (claim C3): per-leg traffic
substitution — each leg contributes its traffic-adjusted time when present
and its base time otherwise. -/
def perLegSubstitutedTime (st sf : Summary) : Option ℚ :=
  match st.time, sf.time with
  | some t1, some t2 => some (st.traffic_time.getD t1 + sf.traffic_time.getD t2)
  | _, _ => Option.none

/-- A client whose to-leg (departure 08:00) carries a traffic-adjusted time
and whose from-leg does not. -/
def cexClientC3 : RouteFn := fun _ _ _ dt _ =>
  if dt = some ("08:00") then some ⟨some 10, some 15, Option.none⟩
  else some ⟨some 10, Option.none, Option.none⟩

def destC3 : Dest :=
  { name := "D", coords := (1, 1), weight := Option.none, group := Option.none,
    transport_mode := Option.none, departure_time_to := some ("08:00"),
    departure_time_from := some ("17:00"), day_of_week := Option.none }

def originW : Origin := { name := "O", coords := (0, 0) }

/-- C3 counterexample: with traffic data on the to-leg only, the engine's
summed contribution is the base sum 10+10 = 20, not the per-leg-substituted
15+10 = 25 the claim prescribes. -/
theorem C3_counterexample :
    (individualStep cexClientC3 originW ("auto") destC3).1 = 20 ∧
    perLegSubstitutedTime ⟨some 10, some 15, Option.none⟩ ⟨some 10, Option.none, Option.none⟩ = some 25 ∧
    (20 : ℚ) ≠ 25 := by
  refine ⟨by decide, by decide, by decide⟩

/-- C3 amended: the engine substitutes traffic-adjusted times only when BOTH
legs carry one (then the summed time is the sum of the two traffic times);
when at least one leg lacks traffic data the base times of both legs are
summed. -/
theorem C3_amended_traffic (client : RouteFn) (o : Origin) (costing : String)
    (d : Dest) (st sf : Summary) (t1 t2 : ℚ)
    (hto : client o.coords d.coords (route_costing d costing) d.departure_time_to d.day_of_week = some st)
    (hfrom : client o.coords d.coords (route_costing d costing) d.departure_time_from d.day_of_week = some sf)
    (h1 : st.time = some t1) (h2 : sf.time = some t2) :
    (∀ a b, st.traffic_time = some a → sf.traffic_time = some b →
      (individualStep client o costing d).1 = (a + b) * d.weight.getD 1) ∧
    (st.traffic_time = Option.none ∨ sf.traffic_time = Option.none →
      (individualStep client o costing d).1 = (t1 + t2) * d.weight.getD 1) := by
  constructor
  · intro a b ha hb
    simp only [individualStep, hto, hfrom, h1, h2, chooseTime, ha, hb]
  · intro h
    rcases h with h | h
    · simp only [individualStep, hto, hfrom, h1, h2, chooseTime, h]
    · simp only [individualStep, hto, hfrom, h1, h2, chooseTime, h]
      cases hst : st.traffic_time <;> simp

/-- Witness for C3 amended at the concrete one-leg-traffic input. -/
theorem C3_amended_traffic_witness :
    (cexClientC3 originW.coords destC3.coords (route_costing destC3 ("auto"))
        destC3.departure_time_to destC3.day_of_week = some ⟨some 10, some 15, Option.none⟩) ∧
    (cexClientC3 originW.coords destC3.coords (route_costing destC3 ("auto"))
        destC3.departure_time_from destC3.day_of_week = some ⟨some 10, Option.none, Option.none⟩) ∧
    (individualStep cexClientC3 originW ("auto") destC3).1 = (10 + 10) * (destC3.weight.getD 1) := by
  refine ⟨by decide, by decide, ?_⟩
  exact (C3_amended_traffic cexClientC3 originW ("auto") destC3
    ⟨some 10, some 15, Option.none⟩ ⟨some 10, Option.none, Option.none⟩ 10 10
    (by decide) (by decide) rfl rfl).2 (Or.inr rfl)

/-- A client whose reported leg time depends on the requested profile:
1 minute per leg under "bicycle", 2 minutes per leg under anything else. -/
def cexClientC9 : RouteFn := fun _ _ c _ _ =>
  if c = "bicycle" then some ⟨some 1, Option.none, Option.none⟩
  else some ⟨some 2, Option.none, Option.none⟩

/-- A destination whose transport profile override is "bicycle", a member of
the enumerated profile set. -/
def destC9 : Dest :=
  { name := "D", coords := (1, 1), weight := Option.none, group := Option.none,
    transport_mode := some ("bicycle"), departure_time_to := Option.none,
    departure_time_from := Option.none, day_of_week := Option.none }

/-- Modelled from the spec for comparison (claim C9): the round-trip score
contribution when both legs are requested with the destination's own
transport profile (engine default only when it has none). -/
def specOwnProfileContribution (client : RouteFn) (o : Origin) (costing : String)
    (d : Dest) : Option ℚ :=
  let rc := d.transport_mode.getD costing
  match client o.coords d.coords rc d.departure_time_to d.day_of_week,
        client o.coords d.coords rc d.departure_time_from d.day_of_week with
  | some st, some sf => (tripTime st sf).map (fun t => t * d.weight.getD 1)
  | _, _ => Option.none

/-- C9 counterexample: for a destination with `transport_mode = "bicycle"`
and engine default "auto", the engine's contribution is 2+2 = 4 (legs
requested with "auto"), while requesting the legs with the destination's own
profile would give 1+1 = 2. -/
theorem C9_counterexample :
    (individualStep cexClientC9 originW ("auto") destC9).1 = 4 ∧
    specOwnProfileContribution cexClientC9 originW ("auto") destC9 = some 2 ∧
    (4 : ℚ) ≠ 2 := by
  refine ⟨by decide, by decide, by decide⟩

/-- C9 amended: only the value "walking" (not itself a member of the
enumerated profile set) is honoured, as profile "pedestrian"; a destination
with any other `transport_mode` — the enumerated profiles included — has both
legs requested with the engine-wide default costing: the engine's behaviour
on it depends on the client only through that default profile. -/
theorem C9_amended_profile (client1 client2 : RouteFn) (o : Origin)
    (costing : String) (d : Dest)
    (hmode : d.transport_mode.getD ("auto") ≠ "walking")
    (hagree : ∀ a b dt dw, client1 a b costing dt dw = client2 a b costing dt dw) :
    route_costing d costing = costing ∧
    individualStep client1 o costing d = individualStep client2 o costing d ∧
    memberTime client1 o costing d = memberTime client2 o costing d := by
  have hrc : route_costing d costing = costing := by
    simp [route_costing, hmode]
  refine ⟨hrc, ?_, ?_⟩
  · simp only [individualStep, hrc, hagree]
  · simp only [memberTime, hrc, hagree]

/-- A second client for the C9 witness, agreeing with `cexClientC9` at the
default profile "auto" but not elsewhere. -/
def cexClientC9b : RouteFn := fun a b c dt dw =>
  if c = "auto" then cexClientC9 a b c dt dw
  else some ⟨some 99, Option.none, Option.none⟩

/-- Witness for C9 amended at the concrete bicycle-override destination. -/
theorem C9_amended_profile_witness :
    destC9.transport_mode.getD ("auto") ≠ "walking" ∧
    (route_costing destC9 ("auto") = "auto" ∧
      individualStep cexClientC9 originW ("auto") destC9 =
        individualStep cexClientC9b originW ("auto") destC9 ∧
      memberTime cexClientC9 originW ("auto") destC9 =
        memberTime cexClientC9b originW ("auto") destC9) := by
  refine ⟨by decide, ?_⟩
  exact C9_amended_profile cexClientC9 cexClientC9b originW ("auto") destC9
    (by decide) (fun a b dt dw => by simp [cexClientC9b])

/-- A provider used in the cache-layer examples: the Valhalla-shaped client,
whose geocode returns a TUPLE of floats (nominatim_client.py:22) and whose
route result is a summary dict. -/
def demoProv : Prov :=
  { name := "Valhalla",
    geocode_fn := fun _ => .tuple [.num 1, .num 2],
    route_fn := fun _ _ _ _ _ =>
      .dict [("trip", .dict [("summary", .dict [("time", .num 10)])])] }

/-- A cache store whose backing server is unreachable. -/
def downStore : CacheStore := { up := false, data := [] }

/-- C5 counterexample: with the store down, a route call through the
decorator raises (the decorator has no try/except around `cache.get`), it
does not fall back to the wrapped provider. -/
theorem C5_counterexample :
    cachedGetRoute demoProv downStore (.list [.num 0, .num 0])
      (.list [.num 1, .num 1]) ("auto") Option.none Option.none =
      Except.error ("MongoDB unavailable") ∧
    Except.error ("MongoDB unavailable") ≠
      Except.ok (demoProv.route_fn (.list [.num 0, .num 0]) (.list [.num 1, .num 1])
        ("auto") Option.none Option.none, downStore, 1) := by
  exact ⟨rfl, by simp⟩

/-- C5 amended: pass-through degradation happens at construction time, not
per call: when the cache server is unreachable while the client is being set
up, `setup_routing_client` returns the bare provider, and every route call
through it returns the provider's result with no exception. -/
theorem C5_amended_passthrough :
    setup_routing_client false = ClientChoice.plain ∧
    (∀ (p : Prov) (o d : PyVal) (costing : String) (dt dow : Option String),
      routeVia p (setup_routing_client false) o d costing dt dow =
        Except.ok (p.route_fn o d costing dt dow, ClientChoice.plain, 1)) :=
  ⟨rfl, fun _ _ _ _ _ _ => rfl⟩

/-- Every profile speed of the demo speed map is positive. -/
theorem speed_map_pos (c : String) : 0 < speed_map c := by
  unfold speed_map
  split_ifs <;> norm_num

/-- The haversine distance across one degree of latitude evaluates in closed
form. -/
theorem haversine_one_deg : haversine_km 0 0 1 0 = 6371 * Real.pi / 180 := by
  have hpi := Real.pi_pos
  have h360 : (0 : ℝ) < Real.pi / 360 := by positivity
  have hle : Real.pi / 360 ≤ Real.pi / 2 := by
    rw [div_le_div_iff₀ (by norm_num) (by norm_num)]
    nlinarith
  have hsin : (0 : ℝ) ≤ Real.sin (Real.pi / 360) :=
    Real.sin_nonneg_of_nonneg_of_le_pi (le_of_lt h360) (by nlinarith)
  unfold haversine_km
  simp only [zero_mul, one_mul, sub_zero, zero_div, Real.sin_zero, Real.cos_zero,
    ne_eq, OfNat.ofNat_ne_zero, not_false_eq_true, zero_pow, mul_zero, add_zero]
  rw [div_div]
  norm_num
  rw [Real.sqrt_sq hsin, Real.arcsin_sin (by linarith) hle]
  ring

/-- The demo distance across one degree of latitude is nonzero. -/
theorem haversine_one_deg_pos : 0 < haversine_km 0 0 1 0 := by
  rw [haversine_one_deg]
  positivity

/-- Two demo route calls with identical arguments and a route of nonzero
distance return equal results exactly when their RNG draws are equal. -/
theorem demoRoute_jitter_inj (origin destination : ℝ × ℝ) (costing : String)
    (dt dow : Option String) (j1 j2 : ℝ) (tf : ℚ)
    (htf : demoTrafficFactor dt dow = some tf)
    (hbase : haversine_km origin.1 origin.2 destination.1 destination.2 ≠ 0) :
    (demoGetRoute origin destination costing dt dow j1 =
      demoGetRoute origin destination costing dt dow j2 ↔ j1 = j2) := by
  unfold demoGetRoute
  rw [htf]
  simp only [Option.map_some']
  constructor
  · intro h
    have hinj := Option.some.inj h
    have htime := congrArg DemoSummary.time hinj
    simp only at htime
    have hb : haversine_km origin.1 origin.2 destination.1 destination.2 /
        ((speed_map costing : ℚ) : ℝ) * 60 ≠ 0 := by
      have hs : ((speed_map costing : ℚ) : ℝ) ≠ 0 := by
        have := speed_map_pos costing
        positivity
      exact mul_ne_zero (div_ne_zero hbase hs) (by norm_num)
    have := mul_left_cancel₀ hb htime
    linarith [this]
  · intro h
    rw [h]

/-- C6 counterexample: two demo route calls with identical origin,
destination, profile, departure time and day of week return DIFFERENT
results when the hidden `random.random()` draw differs (draws 0 and 1 give
jitter factors 0.8 and 1.2 on a nonzero base time), so the route computation
is not a function of the call arguments alone. -/
theorem C6_counterexample :
    demoGetRoute (0, 0) (1, 0) ("auto") Option.none Option.none 0 ≠
      demoGetRoute (0, 0) (1, 0) ("auto") Option.none Option.none 1 := by
  intro h
  have h01 := (demoRoute_jitter_inj (0, 0) (1, 0) ("auto") Option.none Option.none
    0 1 1 rfl (ne_of_gt haversine_one_deg_pos)).mp h
  norm_num at h01

/-- C6 amended: the demo route computation is deterministic given the RNG
draw — with the `random.random()` value made an explicit input, two calls
with identical arguments (and a route of nonzero distance) return identical
results precisely when they draw the same jitter; the jitter multiplier is
the only nondeterminism. -/
theorem C6_amended_determinism (origin destination : ℝ × ℝ) (costing : String)
    (dt dow : Option String) (j1 j2 : ℝ) (tf : ℚ)
    (htf : demoTrafficFactor dt dow = some tf)
    (hbase : haversine_km origin.1 origin.2 destination.1 destination.2 ≠ 0) :
    (demoGetRoute origin destination costing dt dow j1 =
      demoGetRoute origin destination costing dt dow j2 ↔ j1 = j2) :=
  demoRoute_jitter_inj origin destination costing dt dow j1 j2 tf htf hbase

/-- Witness for C6 amended at the one-degree route with draws 0 and 1. -/
theorem C6_amended_determinism_witness :
    demoTrafficFactor Option.none Option.none = some 1 ∧
    haversine_km 0 0 1 0 ≠ 0 ∧
    (demoGetRoute (0, 0) (1, 0) ("auto") Option.none Option.none 0 =
      demoGetRoute (0, 0) (1, 0) ("auto") Option.none Option.none 1 ↔ (0 : ℝ) = 1) :=
  ⟨rfl, ne_of_gt haversine_one_deg_pos,
    C6_amended_determinism (0, 0) (1, 0) ("auto") Option.none Option.none 0 1 1 rfl
      (ne_of_gt haversine_one_deg_pos)⟩

/-- A dashboard score is only ever produced with a positive valid-route
count (simple_dashboard.py:78). -/
theorem dashOriginScore_valid (client : RouteFn) (costing : String)
    (dests : List Dest) (o : Origin) (s : DashScore)
    (h : dashOriginScore client costing dests o = some s) : 0 < s.valid_routes := by
  simp only [dashOriginScore] at h
  split at h
  · cases h
    simpa using ‹_›
  · simp at h

/-- An engine score is only ever produced with a positive valid-route count
(main.py:542). -/
theorem originResult_valid (client : RouteFn) (costing : String)
    (tbl : List (String × List (String × Record))) (indiv : List Dest)
    (o : Origin) (s : Score)
    (h : (originResult client costing tbl indiv o).2 = some s) : 0 < s.valid_routes := by
  simp only [originResult] at h
  split at h
  next hv =>
    cases h
    exact hv
  next =>
    simp at h

/-- C2 amended: the ranked output (the dashboard's sort of the per-origin
scores) is ordered ascending by average score — for all pairs A before B,
A.avg_score ≤ B.avg_score, which is the stated iff whenever average scores
are distinct — and every origin with zero valid legs is omitted from the
output (both in the dashboard pipeline and in the engine's scores) rather
than scored as infinite or zero. -/
theorem C2_amended_ranking (client : RouteFn) (g : Geocoder)
    (dests : List DestSpec) (origins : List OriginSpec) (costing : String) :
    List.Sorted dashLE (load_and_process_data client g dests origins costing) ∧
    (∀ s ∈ load_and_process_data client g dests origins costing, 0 < s.valid_routes) ∧
    (∀ (origins2 : List Origin) (dests2 : List Dest) (s : Score),
      s ∈ (calculate_routes_and_scores client origins2 dests2 costing).2 →
      0 < s.valid_routes) := by
  refine ⟨?_, ?_, ?_⟩
  · unfold load_and_process_data sortScores
    exact List.sorted_insertionSort dashLE _
  · intro s hs
    unfold load_and_process_data sortScores at hs
    rw [List.mem_insertionSort] at hs
    obtain ⟨o, _, ho⟩ := List.mem_filterMap.mp hs
    exact dashOriginScore_valid _ _ _ _ _ ho
  · intro origins2 dests2 s hs
    unfold calculate_routes_and_scores at hs
    obtain ⟨res, hres, hsnd⟩ := List.mem_filterMap.mp hs
    obtain ⟨o, _, rfl⟩ := List.mem_map.mp hres
    exact originResult_valid _ _ _ _ _ _ hsnd

/-- A client giving every pair the same 10-minute one-way time. -/
def cexClientC2 : RouteFn := fun _ _ _ _ _ => some ⟨some 10, Option.none, Option.none⟩

/-- A geocoder that always succeeds. -/
def cexGeoC2 : Geocoder := fun _ => .ok (0, 0)

/-- A destination record with all optional fields absent. -/
def dspecW : DestSpec :=
  ⟨"D", Option.none, Option.none, Option.none, Option.none, Option.none, Option.none⟩

/-- C2 counterexample: two origins A and B with identical coordinates tie at
average score 10; in the sorted output A appears before B, so the pair (B, A)
violates "A appears before B iff A.avg_score ≤ B.avg_score" (B.avg ≤ A.avg
holds but B does not appear before A). -/
theorem C2_counterexample :
    ¬ RankedIff (load_and_process_data cexClientC2 cexGeoC2 [dspecW]
      [⟨"A"⟩, ⟨"B"⟩] ("auto")) := by decide

/-- The dashboard score of origin A in the witness run. -/
def dashScoreW : DashScore :=
  { name := "A", total_score := 10, avg_score := 10, valid_routes := 1,
    coords := (0, 0), routes := [⟨"D", 10, 1, 10⟩] }

/-- Witness for C2 amended: the concrete run's output contains `dashScoreW`,
and the theorem yields its positive valid-route count. -/
theorem C2_amended_ranking_witness :
    dashScoreW ∈ load_and_process_data cexClientC2 cexGeoC2 [dspecW] [⟨"A"⟩, ⟨"B"⟩] ("auto") ∧
    0 < dashScoreW.valid_routes := by
  constructor
  · decide
  · exact (C2_amended_ranking cexClientC2 cexGeoC2 [dspecW] [⟨"A"⟩, ⟨"B"⟩]
      ("auto")).2.1 dashScoreW (by decide)

/-- Looking up the key just upserted finds the new value. -/
theorem lookupA_upsertA_self {β : Type} (l : List (String × β)) (k : String) (v : β) :
    lookupA (upsertA l k v) k = some v := by
  induction l with
  | nil => simp [upsertA, lookupA]
  | cons kv rest ih =>
    obtain ⟨k1, v1⟩ := kv
    by_cases h : k1 = k
    · simp [upsertA, lookupA, h]
    · simp [upsertA, lookupA, h, ih]

mutual

/-- A tuple-free Python value survives the JSON round trip unchanged. -/
theorem fromJson_toJson : ∀ (v : PyVal), tupleFree v = true → fromJson (toJson v) = v
  | .none, _ => by simp [toJson, fromJson]
  | .bool b, _ => by simp [toJson, fromJson]
  | .num q, _ => by simp [toJson, fromJson]
  | .str s, _ => by simp [toJson, fromJson]
  | .list xs, h => by
    simp only [toJson, fromJson]
    rw [fromJson_toJson_list xs (by simpa [tupleFree] using h)]
  | .tuple xs, h => by simp [tupleFree] at h
  | .dict kvs, h => by
    simp only [toJson, fromJson]
    rw [fromJson_toJson_kvs kvs (by simpa [tupleFree] using h)]

/-- List version of `fromJson_toJson`. -/
theorem fromJson_toJson_list : ∀ (xs : List PyVal), tupleFreeList xs = true →
    fromJsonList (toJsonList xs) = xs
  | [], _ => by simp [toJsonList, fromJsonList]
  | x :: xs, h => by
    simp only [toJsonList, fromJsonList]
    have hx : tupleFree x = true ∧ tupleFreeList xs = true := by
      simpa [tupleFreeList, Bool.and_eq_true] using h
    rw [fromJson_toJson x hx.1, fromJson_toJson_list xs hx.2]

/-- Binding-list version of `fromJson_toJson`. -/
theorem fromJson_toJson_kvs : ∀ (kvs : List (String × PyVal)), tupleFreeKvs kvs = true →
    fromJsonKvs (toJsonKvs kvs) = kvs
  | [], _ => by simp [toJsonKvs, fromJsonKvs]
  | kv :: kvs, h => by
    simp only [toJsonKvs, fromJsonKvs]
    have hx : tupleFree kv.2 = true ∧ tupleFreeKvs kvs = true := by
      simpa [tupleFreeKvs, Bool.and_eq_true] using h
    rw [fromJson_toJson kv.2 hx.1, fromJson_toJson_kvs kvs hx.2]

end

/-- The JSON round trip of a non-None Python value is not None (`json.dumps`
maps only `None` to `null`). -/
theorem pyIsNone_roundtrip (v : PyVal) (h : v ≠ PyVal.none) :
    pyIsNone (fromJson (toJson v)) = false := by
  cases v
  case none => exact absurd rfl h
  all_goals simp [toJson, fromJson, pyIsNone]


/-- The cache entry written on a route-call miss. -/
def routeEntry (p : Prov) (origin destination : PyVal) (costing : String)
    (dt dow : Option String) : CacheEntry :=
  { value := toJson (p.route_fn origin destination costing dt dow),
    metadata := routeMetadata p origin destination costing dt dow }

/-- The cache state after a route-call miss stores the serialized result
under the call's fingerprint. -/
def storeRoute (p : Prov) (c : CacheStore) (origin destination : PyVal)
    (costing : String) (dt dow : Option String) : CacheStore :=
  let d2 := upsertA c.data (routeKey p origin destination costing dt dow)
    (routeEntry p origin destination costing dt dow)
  { c with data := d2 }

/-- C4: with the cache store up, of two identical route calls in sequence the
first invokes the wrapped provider at most once, and the second invokes it
ZERO times, leaves the store unchanged and returns exactly the
deserialization of the entry stored under the call's fingerprint (no
re-validation).  The hypothesis `hres` records the decorator's typing
contract: provider route results are dicts, never Python `None`. -/
theorem C4_cache_idempotent (p : Prov) (c : CacheStore) (origin destination : PyVal)
    (costing : String) (dt dow : Option String)
    (hup : c.up = true)
    (hres : p.route_fn origin destination costing dt dow ≠ PyVal.none) :
    ∃ r1 c1 n1,
      cachedGetRoute p c origin destination costing dt dow = .ok (r1, c1, n1) ∧
      n1 ≤ 1 ∧
      ∃ e, lookupA c1.data (routeKey p origin destination costing dt dow) = some e ∧
        cachedGetRoute p c1 origin destination costing dt dow =
          .ok (fromJson e.value, c1, 0) := by
  have hget : mongoGet c (routeKey p origin destination costing dt dow) =
      .ok (match lookupA c.data (routeKey p origin destination costing dt dow) with
        | some e => fromJson e.value
        | Option.none => PyVal.none) := by
    simp [mongoGet, hup]
  by_cases hnone :
      pyIsNone (match lookupA c.data (routeKey p origin destination costing dt dow) with
        | some e => fromJson e.value
        | Option.none => PyVal.none) = true
  · -- first call misses (absent entry or stored null) and stores the result
    have hset : mongoSet c (routeKey p origin destination costing dt dow)
        (p.route_fn origin destination costing dt dow)
        (routeMetadata p origin destination costing dt dow) =
        .ok (storeRoute p c origin destination costing dt dow) := by
      simp [mongoSet, hup, storeRoute, routeEntry]
    have hlook : lookupA (storeRoute p c origin destination costing dt dow).data
        (routeKey p origin destination costing dt dow) =
        some (routeEntry p origin destination costing dt dow) := by
      simp [storeRoute, lookupA_upsertA_self]
    have hget2 : mongoGet (storeRoute p c origin destination costing dt dow)
        (routeKey p origin destination costing dt dow) =
        .ok (fromJson (toJson (p.route_fn origin destination costing dt dow))) := by
      simp only [mongoGet, storeRoute, hup, if_true, lookupA_upsertA_self, routeEntry]
    refine ⟨p.route_fn origin destination costing dt dow,
      storeRoute p c origin destination costing dt dow, 1, ?_, le_refl 1,
      routeEntry p origin destination costing dt dow, hlook, ?_⟩
    · simp only [cachedGetRoute, hget, hnone, if_true, hset]
    · simp only [cachedGetRoute, hget2, pyIsNone_roundtrip _ hres, Bool.false_eq_true,
        if_false, routeEntry]
  · -- first call hits: the state is untouched and nothing is invoked
    have hnone' :
        pyIsNone (match lookupA c.data (routeKey p origin destination costing dt dow) with
          | some e => fromJson e.value
          | Option.none => PyVal.none) = false := by
      simpa using hnone
    cases hl : lookupA c.data (routeKey p origin destination costing dt dow) with
    | none =>
      rw [hl] at hnone'
      simp [pyIsNone] at hnone'
    | some e =>
      rw [hl] at hget hnone'
      refine ⟨fromJson e.value, c, 0, ?_, by norm_num, e, hl, ?_⟩
      · simp only [cachedGetRoute, hget, hnone', Bool.false_eq_true, if_false]
      · simp only [cachedGetRoute, hget, hnone', Bool.false_eq_true, if_false]

/-- An initially-empty, reachable cache store. -/
def upStore : CacheStore := { up := true, data := [] }

/-- Witness for C4 at a concrete provider and an empty reachable store. -/
theorem C4_cache_idempotent_witness :
    upStore.up = true ∧
    demoProv.route_fn (.list [.num 0, .num 0]) (.list [.num 1, .num 1]) ("auto")
      Option.none Option.none ≠ PyVal.none ∧
    (∃ r1 c1 n1,
      cachedGetRoute demoProv upStore (.list [.num 0, .num 0]) (.list [.num 1, .num 1])
        ("auto") Option.none Option.none = .ok (r1, c1, n1) ∧
      n1 ≤ 1 ∧
      ∃ e, lookupA c1.data (routeKey demoProv (.list [.num 0, .num 0])
          (.list [.num 1, .num 1]) ("auto") Option.none Option.none) = some e ∧
        cachedGetRoute demoProv c1 (.list [.num 0, .num 0]) (.list [.num 1, .num 1])
          ("auto") Option.none Option.none = .ok (fromJson e.value, c1, 0)) := by
  refine ⟨rfl, by simp [demoProv], ?_⟩
  exact C4_cache_idempotent demoProv upStore (.list [.num 0, .num 0])
    (.list [.num 1, .num 1]) ("auto") Option.none Option.none rfl (by simp [demoProv])

/-- The cache entry written on a geocode miss. -/
def geocodeEntry (p : Prov) (address : String) : CacheEntry :=
  { value := toJson (p.geocode_fn address),
    metadata := [("method", .str ("geocode")), ("address", .str address),
      ("client_name", .str p.name)] }

/-- The cache state after a geocode miss. -/
def storeGeocode (p : Prov) (c : CacheStore) (address : String) : CacheStore :=
  let d2 := upsertA c.data (geocodeKey p address) (geocodeEntry p address)
  { c with data := d2 }

/-- C10: a geocode miss returns the provider's value `r` itself and stores
`json.dumps(r)`; every later hit for the same fingerprint returns the JSON
round trip `json.loads(json.dumps(r))`, not `r`: tuple-free values (the
dict-shaped route results among them) come back equal, but the
Valhalla/Nominatim geocode TUPLE `(lat, lon)` comes back as the LIST
`[lat, lon]`, a different value. -/
theorem C10_roundtrip (p : Prov) (c : CacheStore) (address : String)
    (hup : c.up = true)
    (hmiss : lookupA c.data (geocodeKey p address) = Option.none)
    (hres : p.geocode_fn address ≠ PyVal.none) :
    ∃ c1,
      cachedGeocode p c address = .ok (p.geocode_fn address, c1, 1) ∧
      cachedGeocode p c1 address = .ok (fromJson (toJson (p.geocode_fn address)), c1, 0) ∧
      (tupleFree (p.geocode_fn address) = true →
        fromJson (toJson (p.geocode_fn address)) = p.geocode_fn address) ∧
      (∀ a b : ℚ, p.geocode_fn address = .tuple [.num a, .num b] →
        fromJson (toJson (p.geocode_fn address)) = .list [.num a, .num b] ∧
        fromJson (toJson (p.geocode_fn address)) ≠ p.geocode_fn address) := by
  have hget : mongoGet c (geocodeKey p address) = .ok PyVal.none := by
    simp [mongoGet, hup, hmiss]
  have hset : mongoSet c (geocodeKey p address) (p.geocode_fn address)
      [("method", .str ("geocode")), ("address", .str address),
       ("client_name", .str p.name)] = .ok (storeGeocode p c address) := by
    simp [mongoSet, hup, storeGeocode, geocodeEntry]
  have hget2 : mongoGet (storeGeocode p c address) (geocodeKey p address) =
      .ok (fromJson (toJson (p.geocode_fn address))) := by
    simp only [mongoGet, storeGeocode, hup, if_true, lookupA_upsertA_self, geocodeEntry]
  refine ⟨storeGeocode p c address, ?_, ?_, fromJson_toJson _, ?_⟩
  · simp only [cachedGeocode, hget, pyIsNone, if_true, hset]
  · simp only [cachedGeocode, hget2, pyIsNone_roundtrip _ hres, Bool.false_eq_true,
      if_false]
  · intro a b hr
    rw [hr]
    constructor
    · simp [toJson, toJsonList, fromJson, fromJsonList]
    · simp [toJson, toJsonList, fromJson, fromJsonList]

/-- Witness for C10 with the tuple-returning Valhalla-shaped geocoder. -/
theorem C10_roundtrip_witness :
    upStore.up = true ∧
    lookupA upStore.data (geocodeKey demoProv ("Porto Alegre")) = Option.none ∧
    demoProv.geocode_fn ("Porto Alegre") ≠ PyVal.none ∧
    (∃ c1,
      cachedGeocode demoProv upStore ("Porto Alegre") =
        .ok (demoProv.geocode_fn ("Porto Alegre"), c1, 1) ∧
      cachedGeocode demoProv c1 ("Porto Alegre") =
        .ok (fromJson (toJson (demoProv.geocode_fn ("Porto Alegre"))), c1, 0) ∧
      (tupleFree (demoProv.geocode_fn ("Porto Alegre")) = true →
        fromJson (toJson (demoProv.geocode_fn ("Porto Alegre"))) =
          demoProv.geocode_fn ("Porto Alegre")) ∧
      (∀ a b : ℚ, demoProv.geocode_fn ("Porto Alegre") = .tuple [.num a, .num b] →
        fromJson (toJson (demoProv.geocode_fn ("Porto Alegre"))) = .list [.num a, .num b] ∧
        fromJson (toJson (demoProv.geocode_fn ("Porto Alegre"))) ≠
          demoProv.geocode_fn ("Porto Alegre"))) := by
  refine ⟨rfl, rfl, by simp [demoProv], ?_⟩
  exact C10_roundtrip demoProv upStore ("Porto Alegre") rfl rfl (by simp [demoProv])

/-- `sortJsonKvs` is a value-map. -/
theorem sortJsonKvs_eq_map : ∀ (l : List (String × Json)),
    sortJsonKvs l = l.map (fun kv => (kv.1, sortJson kv.2))
  | [] => by simp [sortJsonKvs]
  | kv :: kvs => by simp [sortJsonKvs, sortJsonKvs_eq_map kvs]

/-- Mapping pair values leaves the keys unchanged. -/
theorem map_fst_pair {α β γ : Type} (F : β → γ) (l : List (α × β)) :
    ((l.map fun kv => (kv.1, F kv.2)).map Prod.fst) = l.map Prod.fst := by
  induction l with
  | nil => rfl
  | cons kv kvs ih => simp [ih]

/-- Strict key order on JSON object bindings. -/
def keyLT (a b : String × Json) : Prop := a.1 < b.1

instance : IsAntisymm (String × Json) keyLT :=
  ⟨fun _ _ h1 h2 => absurd h2 (lt_asymm h1)⟩

/-- A key-sorted binding list with no duplicate keys is strictly sorted. -/
theorem sorted_keyLT {l : List (String × Json)} (hs : List.Sorted keyLE l)
    (hn : (l.map Prod.fst).Nodup) : List.Sorted keyLT l := by
  have hne : l.Pairwise (fun a b => a.1 ≠ b.1) := by
    rw [List.Nodup, List.pairwise_map] at hn
    exact hn
  exact (List.Pairwise.and hs hne).imp (fun h => lt_of_le_of_ne h.1 h.2)

/-- Key-sorting two permutations of the same duplicate-free binding list
gives the same list. -/
theorem sortKvs_perm_eq {l1 l2 : List (String × Json)} (hp : l1.Perm l2)
    (hn : (l1.map Prod.fst).Nodup) : sortKvs l1 = sortKvs l2 := by
  have p1 : (sortKvs l1).Perm l1 := List.perm_insertionSort keyLE l1
  have p2 : (sortKvs l2).Perm l2 := List.perm_insertionSort keyLE l2
  have hp2 : (sortKvs l1).Perm (sortKvs l2) := p1.trans (hp.trans p2.symm)
  have hn2' : (l2.map Prod.fst).Nodup := ((hp.map Prod.fst).nodup_iff).mp hn
  have hn1 : ((sortKvs l1).map Prod.fst).Nodup := ((p1.map Prod.fst).nodup_iff).mpr hn
  have hn2 : ((sortKvs l2).map Prod.fst).Nodup := ((p2.map Prod.fst).nodup_iff).mpr hn2'
  exact List.eq_of_perm_of_sorted hp2
    (sorted_keyLT (List.sorted_insertionSort keyLE l1) hn1)
    (sorted_keyLT (List.sorted_insertionSort keyLE l2) hn2)

/-- C7: two fingerprint computations with the same provider name, method and
argument values — the keyword arguments supplied in ANY order (with distinct
parameter names) — produce the same SHA-256 key: `_generate_key` serializes
with all object keys sorted. -/
theorem C7_fingerprint_deterministic (client_name method : String)
    (args : List PyVal) (kw1 kw2 : List (String × PyVal))
    (hperm : kw1.Perm kw2) (hkeys : (kw1.map Prod.fst).Nodup) :
    generate_key client_name method args kw1 =
      generate_key client_name method args kw2 := by
  have hinner : sortKvs (sortJsonKvs (kw1.map fun kv => (kv.1, toJson kv.2))) =
      sortKvs (sortJsonKvs (kw2.map fun kv => (kv.1, toJson kv.2))) := by
    apply sortKvs_perm_eq
    · rw [sortJsonKvs_eq_map, sortJsonKvs_eq_map]
      exact (hperm.map _).map _
    · rw [sortJsonKvs_eq_map, map_fst_pair, map_fst_pair]
      exact hkeys
  unfold generate_key
  simp only [sortJson, sortJsonKvs]
  rw [hinner]

/-- Witness for C7: the same two keyword arguments supplied in both orders. -/
theorem C7_fingerprint_deterministic_witness :
    ([("b", PyVal.num 1), ("a", PyVal.str ("x"))] : List (String × PyVal)).Perm
      [("a", PyVal.str ("x")), ("b", PyVal.num 1)] ∧
    (([("b", PyVal.num 1), ("a", PyVal.str ("x"))] : List (String × PyVal)).map
      Prod.fst).Nodup ∧
    generate_key ("Valhalla") ("get_route") [PyVal.num 0]
        [("b", PyVal.num 1), ("a", PyVal.str ("x"))] =
      generate_key ("Valhalla") ("get_route") [PyVal.num 0]
        [("a", PyVal.str ("x")), ("b", PyVal.num 1)] := by
  refine ⟨List.Perm.swap _ _ _, by decide, ?_⟩
  exact C7_fingerprint_deterministic ("Valhalla") ("get_route") [PyVal.num 0]
    [("b", PyVal.num 1), ("a", PyVal.str ("x"))]
    [("a", PyVal.str ("x")), ("b", PyVal.num 1)]
    (List.Perm.swap _ _ _) (by decide)

/-- Upserting under one key leaves other keys' lookups unchanged. -/
theorem lookupA_upsertA_ne {β : Type} (l : List (String × β)) (k1 k : String) (v : β)
    (h : k1 ≠ k) : lookupA (upsertA l k1 v) k = lookupA l k := by
  induction l with
  | nil => simp [upsertA, lookupA, h]
  | cons kv rest ih =>
    obtain ⟨k2, v2⟩ := kv
    by_cases h2 : k2 = k1
    · subst h2
      simp [upsertA, lookupA, h]
    · by_cases h3 : k2 = k
      · subst h3
        simp [upsertA, lookupA, h2]
      · simp [upsertA, lookupA, h2, h3, ih]

/-- A fold of per-origin upserts never touches a key none of the origins
bears. -/
theorem foldl_upsert_lookup_notmem {β : Type} (f : Origin → β) :
    ∀ (os : List Origin) (acc : List (String × β)) (k : String),
      (∀ o2 ∈ os, o2.name ≠ k) →
      lookupA (os.foldl (fun tbl o2 => upsertA tbl o2.name (f o2)) acc) k =
        lookupA acc k := by
  intro os
  induction os with
  | nil => intro acc k _; rfl
  | cons o2 rest ih =>
    intro acc k h
    simp only [List.foldl_cons]
    rw [ih _ k (fun x hx => h x (List.mem_cons_of_mem _ hx))]
    exact lookupA_upsertA_ne _ _ _ _ (h o2 (List.mem_cons_self _ _))

/-- With duplicate-free origin names, the per-origin table holds each
origin's own value. -/
theorem foldl_upsert_lookup {β : Type} (f : Origin → β) :
    ∀ (os : List Origin) (acc : List (String × β)) (o : Origin),
      o ∈ os → (os.map Origin.name).Nodup →
      lookupA (os.foldl (fun tbl o2 => upsertA tbl o2.name (f o2)) acc) o.name =
        some (f o) := by
  intro os
  induction os with
  | nil => intro acc o h _; cases h
  | cons o2 rest ih =>
    intro acc o hmem hnodup
    simp only [List.foldl_cons]
    rcases List.mem_cons.mp hmem with rfl | hmem2
    · have hno : ∀ x ∈ rest, x.name ≠ o.name := by
        have hnotin : o.name ∉ rest.map Origin.name := by
          simp only [List.map_cons, List.nodup_cons] at hnodup
          exact hnodup.1
        intro x hx he
        exact hnotin (he ▸ List.mem_map_of_mem Origin.name hx)
      rw [foldl_upsert_lookup_notmem f rest _ o.name hno]
      exact lookupA_upsertA_self _ _ _
    · refine ih _ o hmem2 ?_
      simp only [List.map_cons, List.nodup_cons] at hnodup
      exact hnodup.2

/-- `best_routes_by_origin[origin["name"]]` resolves to that origin's own
group records when origin names are unique (the data model's invariant). -/
theorem bestTable_lookup (client : RouteFn) (origins : List Origin) (costing : String)
    (groups : List (String × List Dest)) (o : Origin) (hmem : o ∈ origins)
    (hnodup : (origins.map Origin.name).Nodup) :
    lookupA (bestTable client origins costing groups) o.name =
      some (groupRecords client o costing groups) := by
  unfold bestTable
  exact foldl_upsert_lookup _ origins [] o hmem hnodup

/-- When every route call from an origin fails, an individual step yields no
contribution and no record. -/
theorem individualStep_allnone (client : RouteFn) (o : Origin) (costing : String)
    (h : ∀ dc cst dt dw, client o.coords dc cst dt dw = Option.none) (d : Dest) :
    individualStep client o costing d = (0, 0, Option.none) := by
  simp only [individualStep, h]

/-- When every route call from an origin fails, a group member's round trip
fails. -/
theorem memberTime_allnone (client : RouteFn) (o : Origin) (costing : String)
    (h : ∀ dc cst dt dw, client o.coords dc cst dt dw = Option.none) (d : Dest) :
    memberTime client o costing d = Option.none := by
  simp only [memberTime, h]

/-- The group fold keeps its accumulator when no member has a round trip. -/
theorem bestAux_none (client : RouteFn) (o : Origin) (costing gname : String) (w0 : ℚ)
    (h : ∀ d, memberTime client o costing d = Option.none) :
    ∀ (ds : List Dest) (acc : Option ℚ × Option Record),
      bestAux client o costing gname w0 ds acc = acc := by
  intro ds
  induction ds with
  | nil => intro acc; rfl
  | cons d rest ih =>
    intro acc
    obtain ⟨s, b⟩ := acc
    simp only [bestAux, h]
    exact ih _

/-- When every route call from an origin fails, it wins no group. -/
theorem groupRecords_allnone (client : RouteFn) (o : Origin) (costing : String)
    (h : ∀ dc cst dt dw, client o.coords dc cst dt dw = Option.none) :
    ∀ (groups : List (String × List Dest)),
      groupRecords client o costing groups = [] := by
  intro groups
  induction groups with
  | nil => rfl
  | cons gp rest ih =>
    have hb : bestRouteForGroup client o gp.1 gp.2 costing = Option.none := by
      unfold bestRouteForGroup
      rw [bestAux_none client o costing gp.1 (headWeight gp.2)
        (memberTime_allnone client o costing h) gp.2 (Option.none, Option.none)]
    simp only [groupRecords, List.filterMap_cons, hb, Option.map_none']
    simpa [groupRecords] using ih

/-- An origin all of whose route calls fail accumulates zero valid routes in
the real pipeline (individual steps and group winners both empty) and so
produces no score. -/
theorem originResult_allnone (client : RouteFn) (costing : String)
    (origins : List Origin) (dests : List Dest) (o : Origin)
    (hmem : o ∈ origins) (hnodup : (origins.map Origin.name).Nodup)
    (h : ∀ dc cst dt dw, client o.coords dc cst dt dw = Option.none) :
    (originResult client costing (bestTable client origins costing (splitDests dests).1)
      (splitDests dests).2 o).2 = Option.none := by
  have hbt := bestTable_lookup client origins costing (splitDests dests).1 o hmem hnodup
  have hgr := groupRecords_allnone client o costing h (splitDests dests).1
  rw [hgr] at hbt
  have hsteps : ((splitDests dests).2.map (individualStep client o costing)).map
      (fun s => s.2.1) = (splitDests dests).2.map (fun _ => (0 : Nat)) := by
    rw [List.map_map]
    apply List.map_congr_left
    intro d _
    simp [Function.comp, individualStep_allnone client o costing h d]
  simp only [originResult, hbt, Option.getD_some, hsteps]
  rw [if_neg]
  simp only [List.length_nil, Nat.add_zero, gt_iff_lt, not_lt, Nat.le_zero]
  exact List.sum_eq_zero (by
    intro x hx
    obtain ⟨d, _, rfl⟩ := List.mem_map.mp hx
    rfl)

/-- C8: geocoding failures are per-item: every destination and origin keeps
its position and name in the geocode phase (nothing thrown, nothing dropped)
and a failed item is assigned the sentinel coordinate (0, 0); the engine's
score list is exactly the per-origin results with the scoreless origins
filtered out, and an origin all of whose routes fail produces no
OriginScore. -/
theorem C8_geocode_failures (g : Geocoder) (dests : List DestSpec)
    (origins : List OriginSpec) (client : RouteFn) (costing : String) :
    ((geocode_locations g dests origins).1.map Dest.name = dests.map DestSpec.name) ∧
    ((geocode_locations g dests origins).2.map Origin.name = origins.map OriginSpec.name) ∧
    (∀ d ∈ (geocode_locations g dests origins).1,
      (∃ e, g d.name = .error e) → d.coords = (0, 0)) ∧
    (∀ o2 ∈ (geocode_locations g dests origins).2,
      (∃ e, g o2.name = .error e) → o2.coords = (0, 0)) ∧
    (∀ (origins2 : List Origin) (dests2 : List Dest),
      (calculate_routes_and_scores client origins2 dests2 costing).2 =
        (origins2.map (originResult client costing
          (bestTable client origins2 costing (splitDests dests2).1)
          (splitDests dests2).2)).filterMap Prod.snd) ∧
    (∀ (origins2 : List Origin) (dests2 : List Dest) (o : Origin),
      o ∈ origins2 → (origins2.map Origin.name).Nodup →
      (∀ dc cst dt dw, client o.coords dc cst dt dw = Option.none) →
      (originResult client costing
        (bestTable client origins2 costing (splitDests dests2).1)
        (splitDests dests2).2 o).2 = Option.none) := by
  refine ⟨?_, ?_, ?_, ?_, ?_, ?_⟩
  · simp [geocode_locations, List.map_map, Function.comp, geocodeDest]
  · simp [geocode_locations, List.map_map, Function.comp, geocodeOrigin]
  · intro d hd he
    obtain ⟨d0, _, rfl⟩ := List.mem_map.mp hd
    obtain ⟨e, he⟩ := he
    simp only [geocodeDest] at he ⊢
    simp [geocodeItem, he]
  · intro o2 ho he
    obtain ⟨o0, _, rfl⟩ := List.mem_map.mp ho
    obtain ⟨e, he⟩ := he
    simp only [geocodeOrigin] at he ⊢
    simp [geocodeItem, he]
  · intro origins2 dests2
    rfl
  · intro origins2 dests2 o hmem hnodup h
    exact originResult_allnone client costing origins2 dests2 o hmem hnodup h

/-- A geocoder for which every lookup fails. -/
def failGeo : Geocoder := fun _ => .error ("no match")

/-- A client for which every route call fails. -/
def failClient : RouteFn := fun _ _ _ _ _ => Option.none

/-- Witness for C8 at a concrete failing geocoder and failing client:
origin A gets the sentinel coordinate and produces no score. -/
theorem C8_geocode_failures_witness :
    (geocodeOrigin failGeo ⟨"A"⟩ ∈ (geocode_locations failGeo [dspecW] [⟨"A"⟩]).2) ∧
    (∃ e, failGeo (geocodeOrigin failGeo ⟨"A"⟩).name = .error e) ∧
    (geocodeOrigin failGeo ⟨"A"⟩).coords = (0, 0) ∧
    (originResult failClient ("auto")
      (bestTable failClient [geocodeOrigin failGeo ⟨"A"⟩] ("auto")
        (splitDests [geocodeDest failGeo dspecW]).1)
      (splitDests [geocodeDest failGeo dspecW]).2
      (geocodeOrigin failGeo ⟨"A"⟩)).2 = Option.none := by
  refine ⟨List.mem_cons_self _ _, ⟨"no match", rfl⟩, ?_, ?_⟩
  · exact (C8_geocode_failures failGeo [dspecW] [⟨"A"⟩] failClient ("auto")).2.2.2.1
      (geocodeOrigin failGeo ⟨"A"⟩) (List.mem_cons_self _ _) ⟨"no match", rfl⟩
  · exact (C8_geocode_failures failGeo [dspecW] [⟨"A"⟩] failClient ("auto")).2.2.2.2.2
      [geocodeOrigin failGeo ⟨"A"⟩] [geocodeDest failGeo dspecW]
      (geocodeOrigin failGeo ⟨"A"⟩) (List.mem_cons_self _ _) (by decide)
      (fun _ _ _ _ => rfl)

/-- A kept group record belongs to a member at round-trip time `t`: the
member list splits as `p1 ++ d :: p2`, member `d` has a valid round trip of
time `t`, the record is built from `d` (with weight `w0`), every EARLIER
member's valid round trip is strictly slower (first-encountered tie break),
and no member's valid round trip is faster. -/
def FirstMinAt (client : RouteFn) (o : Origin) (costing gname : String) (w0 : ℚ)
    (p : List Dest) (t : ℚ) (r : Record) : Prop :=
  ∃ st d p1 p2, p = p1 ++ d :: p2 ∧
    memberTime client o costing d = some (t, st) ∧
    r = mkGroupRecord o gname d t st w0 ∧
    (∀ e ∈ p1, ∀ u su, memberTime client o costing e = some (u, su) → t < u) ∧
    (∀ e ∈ p, ∀ u su, memberTime client o costing e = some (u, su) → t ≤ u)

/-- The first-minimum specification of a kept group record. -/
def FirstMin (client : RouteFn) (o : Origin) (costing gname : String) (w0 : ℚ)
    (ds : List Dest) (r : Record) : Prop :=
  ∃ t, FirstMinAt client o costing gname w0 ds t r

/-- The invariant of the group fold after processing the member prefix `p`:
either nothing valid was seen (accumulator untouched), or the accumulator
holds the first minimum of `p`. -/
def GroupInv (client : RouteFn) (o : Origin) (costing gname : String) (w0 : ℚ)
    (p : List Dest) (acc : Option ℚ × Option Record) : Prop :=
  (acc = (Option.none, Option.none) ∧
    ∀ e ∈ p, memberTime client o costing e = Option.none) ∨
  (∃ t r, acc = (some t, some r) ∧ FirstMinAt client o costing gname w0 p t r)

/-- Processing a member with no round trip preserves the invariant. -/
theorem groupInv_extend_none (client : RouteFn) (o : Origin) (costing gname : String)
    (w0 : ℚ) (p : List Dest) (acc : Option ℚ × Option Record) (d : Dest)
    (hmt : memberTime client o costing d = Option.none)
    (h : GroupInv client o costing gname w0 p acc) :
    GroupInv client o costing gname w0 (p ++ [d]) acc := by
  rcases h with ⟨hacc, hall⟩ | ⟨t, r, hacc, st, d1, p1, p2, hsplit, hmt1, hrec, hstrict, hmin⟩
  · left
    refine ⟨hacc, ?_⟩
    intro e he
    rcases List.mem_append.mp he with he | he
    · exact hall e he
    · rw [List.mem_singleton.mp he]
      exact hmt
  · right
    refine ⟨t, r, hacc, st, d1, p1, p2 ++ [d], by rw [hsplit]; simp, hmt1, hrec, hstrict, ?_⟩
    intro e he u su hmu
    rcases List.mem_append.mp he with he | he
    · exact hmin e he u su hmu
    · rw [List.mem_singleton.mp he, hmt] at hmu
      cases hmu

/-- Processing a member strictly faster than the running minimum makes it the
new first minimum. -/
theorem groupInv_step_take (client : RouteFn) (o : Origin) (costing gname : String)
    (w0 : ℚ) (p : List Dest) (shortest : Option ℚ) (best : Option Record) (d : Dest)
    (t : ℚ) (st : Summary)
    (hmt : memberTime client o costing d = some (t, st))
    (hlt : ltShortest t shortest = true)
    (h : GroupInv client o costing gname w0 p (shortest, best)) :
    GroupInv client o costing gname w0 (p ++ [d])
      (some t, some (mkGroupRecord o gname d t st w0)) := by
  right
  refine ⟨t, mkGroupRecord o gname d t st w0, rfl, st, d, p, [], rfl, hmt, rfl, ?_, ?_⟩
  · -- every earlier valid member is strictly slower
    intro e he u su hmu
    rcases h with ⟨_, hall⟩ | ⟨t1, r1, hacc, st1, d1, p1, p2, hsplit, hmt1, hstrict, hmin⟩
    · rw [hall e he] at hmu
      cases hmu
    · have hs : shortest = some t1 := congrArg Prod.fst hacc
      rw [hs] at hlt
      have hlt' : t < t1 := of_decide_eq_true hlt
      have := hmin.2 e he u su hmu
      exact lt_of_lt_of_le hlt' this
  · -- no member of p ++ [d] is faster
    intro e he u su hmu
    rcases List.mem_append.mp he with he | he
    · rcases h with ⟨_, hall⟩ | ⟨t1, r1, hacc, st1, d1, p1, p2, hsplit, hmt1, hstrict, hmin⟩
      · rw [hall e he] at hmu
        cases hmu
      · have hs : shortest = some t1 := congrArg Prod.fst hacc
        rw [hs] at hlt
        have hlt' : t < t1 := of_decide_eq_true hlt
        exact le_of_lt (lt_of_lt_of_le hlt' (hmin.2 e he u su hmu))
    · rw [List.mem_singleton.mp he, hmt] at hmu
      have := (Option.some.inj hmu)
      have ht : t = u := congrArg Prod.fst this
      exact le_of_eq ht

/-- Processing a member at least as slow as the running minimum keeps the
accumulator (strict `<` at main.py:426: ties keep the first). -/
theorem groupInv_step_keep (client : RouteFn) (o : Origin) (costing gname : String)
    (w0 : ℚ) (p : List Dest) (shortest : Option ℚ) (best : Option Record) (d : Dest)
    (t : ℚ) (st : Summary)
    (hmt : memberTime client o costing d = some (t, st))
    (hlt : ltShortest t shortest = false)
    (h : GroupInv client o costing gname w0 p (shortest, best)) :
    GroupInv client o costing gname w0 (p ++ [d]) (shortest, best) := by
  rcases h with ⟨hacc, hall⟩ | ⟨t1, r1, hacc, st1, d1, p1, p2, hsplit, hmt1, hrec, hstrict, hmin⟩
  · -- impossible: with no minimum yet, ltShortest is true
    have hs : shortest = Option.none := congrArg Prod.fst hacc
    rw [hs] at hlt
    cases hlt
  · have hs : shortest = some t1 := congrArg Prod.fst hacc
    rw [hs] at hlt
    have hle : t1 ≤ t := le_of_not_lt (of_decide_eq_false hlt)
    right
    refine ⟨t1, r1, hacc, st1, d1, p1, p2 ++ [d], by rw [hsplit]; simp, hmt1, hrec,
      hstrict, ?_⟩
    intro e he u su hmu
    rcases List.mem_append.mp he with he | he
    · exact hmin e he u su hmu
    · rw [List.mem_singleton.mp he, hmt] at hmu
      have ht : t = u := congrArg Prod.fst (Option.some.inj hmu)
      exact le_trans hle (le_of_eq ht)

/-- The group fold preserves the invariant across any remaining member list. -/
theorem bestAux_inv (client : RouteFn) (o : Origin) (costing gname : String)
    (w0 : ℚ) :
    ∀ (rest p : List Dest) (acc : Option ℚ × Option Record),
      GroupInv client o costing gname w0 p acc →
      GroupInv client o costing gname w0 (p ++ rest)
        (bestAux client o costing gname w0 rest acc) := by
  intro rest
  induction rest with
  | nil =>
    intro p acc h
    simpa [bestAux] using h
  | cons d rest ih =>
    intro p acc h
    obtain ⟨shortest, best⟩ := acc
    have hassoc : p ++ d :: rest = (p ++ [d]) ++ rest := by simp
    cases hmt : memberTime client o costing d with
    | none =>
      simp only [bestAux, hmt]
      rw [hassoc]
      exact ih (p ++ [d]) (shortest, best)
        (groupInv_extend_none client o costing gname w0 p (shortest, best) d hmt h)
    | some ts =>
      obtain ⟨t, st⟩ := ts
      simp only [bestAux, hmt]
      rw [hassoc]
      by_cases hlt : ltShortest t shortest = true
      · rw [if_pos hlt]
        exact ih (p ++ [d]) _
          (groupInv_step_take client o costing gname w0 p shortest best d t st hmt hlt h)
      · have hlt' : ltShortest t shortest = false := by
          simpa using hlt
        rw [if_neg (by simp [hlt'])]
        exact ih (p ++ [d]) _
          (groupInv_step_keep client o costing gname w0 p shortest best d t st hmt hlt' h)

/-- Every record kept by `bestRouteForGroup` is the group's first minimum. -/
theorem bestRouteForGroup_firstMin (client : RouteFn) (o : Origin)
    (costing gname : String) (ds : List Dest) (r : Record)
    (hr : bestRouteForGroup client o gname ds costing = some r) :
    FirstMin client o costing gname (headWeight ds) ds r := by
  have h0 : GroupInv client o costing gname (headWeight ds) []
      (Option.none, Option.none) := Or.inl ⟨rfl, by simp⟩
  have h := bestAux_inv client o costing gname (headWeight ds) ds []
    (Option.none, Option.none) h0
  simp only [List.nil_append] at h
  unfold bestRouteForGroup at hr
  rcases h with ⟨hacc, _⟩ | ⟨t, r1, hacc, hfm⟩
  · rw [hacc] at hr
    cases hr
  · rw [hacc] at hr
    have : r1 = r := Option.some.inj hr
    exact ⟨t, this ▸ hfm⟩

/-- Appending a destination to its group either reuses an existing key or
adds the new key at the end. -/
theorem pushGroup_keys (gs : List (String × List Dest)) (g : String) (d : Dest) :
    (pushGroup gs g d).map Prod.fst =
      if g ∈ gs.map Prod.fst then gs.map Prod.fst else gs.map Prod.fst ++ [g] := by
  induction gs with
  | nil => simp [pushGroup]
  | cons gp rest ih =>
    obtain ⟨g1, ds⟩ := gp
    by_cases h : g1 = g
    · subst h
      simp [pushGroup]
    · simp only [pushGroup, if_neg h, List.map_cons, ih]
      by_cases h2 : g ∈ rest.map Prod.fst
      · simp [h2, Ne.symm h]
      · simp [h2, Ne.symm h]

/-- `pushGroup` preserves duplicate-freeness of the group labels. -/
theorem pushGroup_keys_nodup (gs : List (String × List Dest)) (g : String) (d : Dest)
    (h : (gs.map Prod.fst).Nodup) : ((pushGroup gs g d).map Prod.fst).Nodup := by
  rw [pushGroup_keys]
  by_cases h2 : g ∈ gs.map Prod.fst
  · simpa [h2] using h
  · simp only [h2, if_false]
    simp [List.nodup_append, h, h2]

/-- The grouping fold keeps group labels duplicate-free. -/
theorem splitFold_keys_nodup :
    ∀ (dests : List Dest) (acc : List (String × List Dest) × List Dest),
      ((acc.1).map Prod.fst).Nodup →
      (((dests.foldl splitStep acc).1).map Prod.fst).Nodup := by
  intro dests
  induction dests with
  | nil => intro acc h; exact h
  | cons d rest ih =>
    intro acc h
    simp only [List.foldl_cons]
    apply ih
    unfold splitStep
    cases hg : d.group with
    | none => exact h
    | some g =>
      by_cases hg2 : g = ""
      · simpa [hg2] using h
      · simpa [hg2] using pushGroup_keys_nodup acc.1 g d h

/-- The group labels produced by the partitioning phase are duplicate-free:
at most one group per label. -/
theorem splitDests_keys_nodup (dests : List Dest) :
    (((splitDests dests).1).map Prod.fst).Nodup := by
  unfold splitDests
  exact splitFold_keys_nodup dests ([], []) (by simp)

/-- The per-origin group winners carry a sublist of the group labels. -/
theorem groupRecords_keys_sublist (client : RouteFn) (o : Origin) (costing : String) :
    ∀ (groups : List (String × List Dest)),
      ((groupRecords client o costing groups).map Prod.fst).Sublist
        (groups.map Prod.fst) := by
  intro groups
  induction groups with
  | nil => simp [groupRecords]
  | cons gp rest ih =>
    have ih2 := ih
    simp only [groupRecords] at ih2
    simp only [groupRecords, List.filterMap_cons]
    cases hb : bestRouteForGroup client o gp.1 gp.2 costing with
    | none =>
      simp only [Option.map_none']
      exact ih2.cons gp.1
    | some r =>
      simp only [Option.map_some', List.map_cons]
      exact ih2.cons₂ gp.1

/-- C1: a record kept for a (origin, group) pair is the group's FIRST
MINIMUM: it belongs to a member with a valid round-trip time no greater than
any member's, strictly smaller than every earlier member's (input-order tie
break), and carries the weight of the group's first member; and the engine
keeps at most one record per (origin, group): the group labels of one
origin's kept records are duplicate-free. -/
theorem C1_group_minimum (client : RouteFn) (o : Origin) (costing gname : String)
    (ds : List Dest) (r : Record) (dests : List Dest)
    (hr : bestRouteForGroup client o gname ds costing = some r) :
    FirstMin client o costing gname (headWeight ds) ds r ∧
    r.weight = headWeight ds ∧
    ((groupRecords client o costing (splitDests dests).1).map Prod.fst).Nodup := by
  have hfm := bestRouteForGroup_firstMin client o costing gname ds r hr
  refine ⟨hfm, ?_, ?_⟩
  · obtain ⟨t, st, d, p1, p2, _, _, hrec, _⟩ := hfm
    rw [hrec]
    unfold mkGroupRecord
    cases st.traffic_time <;> rfl
  · exact (groupRecords_keys_sublist client o costing _).nodup (splitDests_keys_nodup dests)

/-- A client for the C1 witness: 4-minute legs to (1, 1) and 2.5-minute legs
anywhere else, matching the spec's scenario of group round trips 8.0 and 5.0. -/
def clC1 : RouteFn := fun _ dc _ _ _ =>
  if dc = ((1 : ℚ), (1 : ℚ)) then some ⟨some 4, Option.none, Option.none⟩
  else some ⟨some (5 / 2), Option.none, Option.none⟩

/-- First member of group G, weight 3. -/
def destG1 : Dest :=
  { name := "D1", coords := (1, 1), weight := some 3, group := some ("G"),
    transport_mode := Option.none, departure_time_to := Option.none,
    departure_time_from := Option.none, day_of_week := Option.none }

/-- Second member of group G, the cheaper one. -/
def destG2 : Dest :=
  { name := "D2", coords := (2, 2), weight := Option.none, group := some ("G"),
    transport_mode := Option.none, departure_time_to := Option.none,
    departure_time_from := Option.none, day_of_week := Option.none }

/-- Witness for C1: in the two-member group the 5-minute member D2 wins with
the first member's weight 3. -/
theorem C1_group_minimum_witness :
    bestRouteForGroup clC1 originW ("G") [destG1, destG2] ("auto") =
      some (mkGroupRecord originW ("G") destG2 5
        ⟨some (5 / 2), Option.none, Option.none⟩ 3) ∧
    (FirstMin clC1 originW ("auto") ("G") (headWeight [destG1, destG2]) [destG1, destG2]
        (mkGroupRecord originW ("G") destG2 5
          ⟨some (5 / 2), Option.none, Option.none⟩ 3) ∧
      (mkGroupRecord originW ("G") destG2 5
        ⟨some (5 / 2), Option.none, Option.none⟩ 3).weight = headWeight [destG1, destG2] ∧
      ((groupRecords clC1 originW ("auto") (splitDests [destG1, destG2]).1).map
        Prod.fst).Nodup) := by
  refine ⟨by decide, ?_⟩
  exact C1_group_minimum clC1 originW ("auto") ("G") [destG1, destG2]
    (mkGroupRecord originW ("G") destG2 5 ⟨some (5 / 2), Option.none, Option.none⟩ 3)
    [destG1, destG2] (by decide)
